import Mathlib

/-!
Verification development for the gitstore manager (src/gitstore-manager.js).

The single source file implements a resilient, file-backed configuration
store (class GitstoreManager) that mirrors named artifacts to a remote git
repository.  We embed it shallowly: the manager's mutable fields become a
`StoreSt` record, the filesystem becomes a flat association list from path
strings to entries, the git repository becomes a `Repo` record (presence
flag, HEAD tree, index tree) plus the remote branch tree, and every external
process invocation is recorded in an event trace.  Outcomes of external git
invocations and fault injection for local file writes are supplied by a
`World` oracle; JavaScript exceptions become the error branch of a
state-passing result monad `M`.

External collaborators are modelled as follows.
* git: each `_runGit` call is one invocation; the oracle decides whether it
  succeeds, and the semantic effect of a successful command (clone, add,
  commit, push) is applied to the `Repo`/remote model.  `git diff --cached
  --quiet` and `git rev-parse HEAD` are modelled semantically (staged tree
  versus HEAD, HEAD presence).  A successful `pull --rebase` is modelled as
  a no-op on files (the store's own logic only depends on its
  success/failure).  Failure messages are one fixed string per command.
* JSON (out of scope per the spec, delegated to a standard library): values
  are modelled to nesting depth two (`JValue` over `JPrim`), which is enough
  for the configuration documents involved; `JSON.stringify` of a non-string
  value is the injective embedding `Content.json`, raw text is
  `Content.text`, and `JSON.parse` inverts `Content.json` and fails on raw
  text.
* The filesystem: a flat map from absolute path strings to entries; a
  directory entry is a single opaque node (recursive copies move it
  wholesale).  `fs.writeFile` can be made to fail per path by the oracle
  (`writeOk`); other local operations fail only for missing paths.
-/

namespace Gitstore

/-- The store's mode field: 'ACTIVE' | 'DEGRADED' | 'LOCAL'. -/
inductive Mode
  | ACTIVE
  | DEGRADED
  | LOCAL
  deriving DecidableEq, Repr

/-- The git subcommands the manager invokes via `_runGit`. -/
inductive GitCmd
  | clone
  | gitInit
  | remoteAdd
  | fetch
  | checkout
  | checkoutNew
  | pull
  | add
  | diffCached
  | commitAmend
  | commitNew
  | push
  | revParse
  deriving DecidableEq, Repr

/-- Events recorded while running: one per external git invocation, plus the
retry delay (`setTimeout`) inside `_pushWithRetry`. -/
inductive GEvent
  | git (cmd : GitCmd)
  | sleep (ms : Nat)
  deriving DecidableEq, Repr

/-- Primitive JSON values (leaves of the depth-two JSON model). -/
inductive JPrim
  | jnull
  | jb (b : Bool)
  | ji (n : Int)
  | js (s : String)
  deriving DecidableEq, Repr

/-- JSON documents, modelled to nesting depth two: primitives, arrays of
primitives, and objects with primitive fields.  This covers the
configuration documents the store handles; the JSON library itself is an
external collaborator per the spec. -/
inductive JValue
  | jnull
  | jb (b : Bool)
  | ji (n : Int)
  | js (s : String)
  | jarr (xs : List JPrim)
  | jobj (fields : List (String × JPrim))
  deriving DecidableEq, Repr

/-- File contents.  `json v` stands for the text `JSON.stringify(v, null,
2)` (the serializer is injective, so we keep the value); `text s` is raw
text written verbatim. -/
inductive Content
  | json (v : JValue)
  | text (s : String)
  deriving DecidableEq, Repr

/-- The JavaScript value passed as `data` to `writeJson`: either a string
(`typeof data === 'string'`, carrying the content it denotes) or a
structured value. -/
inductive JSData
  | str (c : Content)
  | val (v : JValue)
  deriving DecidableEq, Repr

/-- `typeof data === 'string' ? data : JSON.stringify(data, null, 2)`. -/
def toContent : JSData → Content
  | .str c => c
  | .val v => .json v

/-- A filesystem entry: a regular file with contents, or a directory
(opaque node; recursive copies move it wholesale). -/
inductive Entry
  | file (c : Content)
  | dir (label : String)
  deriving DecidableEq, Repr

/-- A flat map from path strings to entries; also used for git trees. -/
abbrev Tree := List (String × Entry)

/-- Lookup in a flat path map (first binding wins). -/
def fsGet : Tree → String → Option Entry
  | [], _ => none
  | (q, e) :: t, p => if q = p then some e else fsGet t p

/-- Canonical update of a flat path map: bind `p` and drop older bindings. -/
def fsSet (fs : Tree) (p : String) (e : Entry) : Tree :=
  (p, e) :: fs.filter (fun kv => kv.1 ≠ p)

/-- The git repository clone at `gitDir`: whether `.git` metadata exists,
the tree of the last commit (`none` before any commit), and the index
(staging area) tree, keyed by paths relative to the repository root. -/
structure Repo where
  present : Bool
  head : Option Tree
  index : Tree
  deriving Repr

/-- The manager's own mutable fields (constructor, lines 14-27). -/
structure StoreSt where
  files : List String
  branch : String
  mode : Mode
  pending : Bool
  error : Option String
  initializedF : Bool
  gitEnvReady : Bool
  askPass : Option String
  deriving Repr

/-- The whole program state: manager fields, filesystem, repository clone,
remote branch contents (`none` = branch absent on the remote), the trace of
external invocations, and a running count of git invocations. -/
structure Config where
  st : StoreSt
  fs : Tree
  repo : Repo
  remote : Option Tree
  trace : List GEvent
  gitCount : Nat
  deriving Repr

/-- What `getState()` returns: {mode, pending, error, branch}. -/
structure StateSnap where
  mode : Mode
  pending : Bool
  error : Option String
  branch : String
  deriving DecidableEq, Repr

def mkSnap (s : StoreSt) : StateSnap :=
  { mode := s.mode, pending := s.pending, error := s.error, branch := s.branch }

/-- The external world: process environment, success/failure of the n-th
git invocation per command, and fault injection for local file writes. -/
structure World where
  env : String → Option String
  gitOk : Nat → GitCmd → Bool
  writeOk : String → Bool

/-- Result of running an operation: JavaScript's normal return or a thrown
exception, in both cases with the state as mutated so far (the manager is a
process-wide singleton, so mutations before a throw persist). -/
inductive Res (α : Type)
  | ok (a : α) (c : Config)
  | err (e : String) (c : Config)

/-- The configuration an operation left behind, thrown or not. -/
def Res.cfg : Res α → Config
  | .ok _ c => c
  | .err _ c => c

/-- State-passing computations that can throw (async methods). -/
def M (α : Type) : Type := Config → Res α

instance : Monad M where
  pure a := fun c => Res.ok a c
  bind x f := fun c =>
    match x c with
    | Res.ok a c' => f a c'
    | Res.err e c' => Res.err e c'

@[simp] theorem bind_apply (x : M α) (f : α → M β) (c : Config) :
    (x >>= f) c =
      match x c with
      | Res.ok a c' => f a c'
      | Res.err e c' => Res.err e c' := rfl

@[simp] theorem pure_apply (a : α) (c : Config) :
    (pure a : M α) c = Res.ok a c := rfl

/-- `try { x } catch (e) { h e }` (also models promise `.catch`). -/
def tryM (x : M α) (h : String → M α) : M α := fun c =>
  match x c with
  | Res.ok a c' => Res.ok a c'
  | Res.err e c' => h e c'

@[simp] theorem tryM_apply (x : M α) (h : String → M α) (c : Config) :
    tryM x h c =
      match x c with
      | Res.ok a c' => Res.ok a c'
      | Res.err e c' => h e c' := rfl

def getM : M Config := fun c => Res.ok c c

@[simp] theorem getM_apply (c : Config) : getM c = Res.ok c c := rfl

def modifyM (f : Config → Config) : M Unit := fun c => Res.ok () (f c)

@[simp] theorem modifyM_apply (f : Config → Config) (c : Config) :
    modifyM f c = Res.ok () (f c) := rfl

def throwM (e : String) : M α := fun c => Res.err e c

@[simp] theorem throwM_apply (e : String) (c : Config) :
    (throwM e : M α) c = Res.err e c := rfl

/-- `this.getState()` as a computation. -/
def getSnapM : M StateSnap := fun c => Res.ok (mkSnap c.st) c

@[simp] theorem getSnapM_apply (c : Config) :
    getSnapM c = Res.ok (mkSnap c.st) c := rfl
/-! ## Paths and constants (lines 9-12, 16-18, 38-48) -/

/-- The process working directory (`process.cwd()`), an abstract absolute
path constant. -/
def cwd : String := "/cwd"

/-- Does the second character list start with the first? -/
def listStarts : List Char → List Char → Bool
  | [], _ => true
  | _ :: _, [] => false
  | a :: as, b :: bs => a = b && listStarts as bs

/-- Does `s` start with `pat`?  (Kernel-reducible replacement for the
library's byte-level check.) -/
def strStarts (s pat : String) : Bool := listStarts pat.data s.data

/-- `path.isAbsolute` for our POSIX-style path strings. -/
def isAbsolutePath (p : String) : Bool := strStarts p "/"

/-- `path.join(a, b)` for a relative `b`. -/
def pathJoin (a b : String) : String := a ++ "/" ++ b

/-- `this.baseDir = path.resolve('data')`. -/
def baseDir : String := pathJoin cwd "data"

/-- `this.gitDir = path.join(this.baseDir, 'gitstore')`. -/
def gitDir : String := pathJoin baseDir "gitstore"

/-- `this.localDir = this.baseDir`. -/
def localDir : String := baseDir

/-- `resolveWorkingPath` (line 38). -/
def resolveWorkingPath (rel : String) : String :=
  if isAbsolutePath rel then rel else pathJoin cwd rel

/-- `resolveLocalPath` (line 42). -/
def resolveLocalPath (rel : String) : String :=
  if isAbsolutePath rel then rel else pathJoin localDir rel

/-- `resolveGitPath` (line 46). -/
def resolveGitPath (rel : String) : String :=
  if isAbsolutePath rel then rel else pathJoin gitDir rel

/-- `DEFAULT_FILES` (line 9). -/
def defaultFiles : List String := ["config.json", "provider_pools.json", "pwd", "configs"]

/-- `REQUIRED_ENV` (line 12). -/
def requiredEnv : List String :=
  ["GITSTORE_GIT_URL", "GITSTORE_GIT_USERNAME", "GITSTORE_GIT_TOKEN"]

/-- Truthiness of `process.env[key]` (missing and empty are both falsy). -/
def envPresent (w : World) (key : String) : Bool :=
  match w.env key with
  | some s => s ≠ ""
  | none => false

/-- `REQUIRED_ENV.filter((key) => !process.env[key])` (line 61). -/
def missingEnv (w : World) : List String :=
  requiredEnv.filter (fun k => ¬ envPresent w k)

/-- `DEFAULT_BRANCH = process.env.GITSTORE_GIT_BRANCH || 'main'` (line 10). -/
def defaultBranch (w : World) : String :=
  if envPresent w "GITSTORE_GIT_BRANCH" then
    match w.env "GITSTORE_GIT_BRANCH" with
    | some s => s
    | none => "main"
  else "main"

/-- The fresh manager state built by the constructor (lines 14-27). -/
def freshStoreSt (w : World) : StoreSt :=
  { files := defaultFiles
  , branch := defaultBranch w
  , mode := .LOCAL
  , pending := false
  , error := none
  , initializedF := false
  , gitEnvReady := false
  , askPass := none }

/-- A process start: fresh manager state, empty trace, arbitrary disk and
remote contents. -/
def initialConfig (w : World) (fs₀ : Tree) (repo₀ : Repo) (remote₀ : Option Tree) : Config :=
  { st := freshStoreSt w, fs := fs₀, repo := repo₀, remote := remote₀
  , trace := [], gitCount := 0 }

/-! ## Error messages (modelling JavaScript `err.message`) -/

/-- Printable subcommand name. -/
def cmdName : GitCmd → String
  | .clone => "clone"
  | .gitInit => "init"
  | .remoteAdd => "remote add"
  | .fetch => "fetch"
  | .checkout => "checkout"
  | .checkoutNew => "checkout -b"
  | .pull => "pull"
  | .add => "add"
  | .diffCached => "diff --cached"
  | .commitAmend => "commit --amend"
  | .commitNew => "commit"
  | .push => "push"
  | .revParse => "rev-parse"

/-- The message of a failed git invocation (external text, one per command). -/
def gitErrMsg (cmd : GitCmd) : String := "git " ++ cmdName cmd ++ " failed"

/-- The message of a failed local file write (fault injection). -/
def writeErrMsg (p : String) : String := "EACCES: " ++ p

/-- The message of reading a missing path. -/
def enoentMsg (p : String) : String := "ENOENT: " ++ p

/-- The message of reading a directory as a file. -/
def eisdirMsg (p : String) : String := "EISDIR: " ++ p

/-- The message of `JSON.parse` failing. -/
def jsonErrMsg : String := "Unexpected token in JSON"

/-! ## Primitive filesystem and git operations -/

/-- Record one external git invocation in the trace and count it. -/
def recordGit (cmd : GitCmd) (c : Config) : Config :=
  { c with trace := c.trace ++ [GEvent.git cmd], gitCount := c.gitCount + 1 }

/-- `_runGit(args, cwd)` (line 295): one external invocation; the world
decides success; a failure is a thrown exception. -/
def runGit (w : World) (cmd : GitCmd) : M Unit := fun c =>
  if w.gitOk c.gitCount cmd then Res.ok () (recordGit cmd c)
  else Res.err (gitErrMsg cmd) (recordGit cmd c)

/-- `await new Promise((resolve) => setTimeout(resolve, ms))`. -/
def sleepM (ms : Nat) : M Unit :=
  modifyM (fun c => { c with trace := c.trace ++ [GEvent.sleep ms] })

/-- `fs.mkdir(p, { recursive: true })`: create the directory if nothing is
there yet. -/
def mkdirM (p : String) : M Unit :=
  modifyM (fun c =>
    match fsGet c.fs p with
    | some _ => c
    | none => { c with fs := fsSet c.fs p (Entry.dir "") })

/-- `fs.stat(p)` (throws for a missing path). -/
def statM (p : String) : M Entry := fun c =>
  match fsGet c.fs p with
  | some e => Res.ok e c
  | none => Res.err (enoentMsg p) c

/-- `fs.readFile(p)` (throws for a missing path or a directory). -/
def readFileM (p : String) : M Content := fun c =>
  match fsGet c.fs p with
  | some (Entry.file ct) => Res.ok ct c
  | some (Entry.dir _) => Res.err (eisdirMsg p) c
  | none => Res.err (enoentMsg p) c

/-- `_writeFile(filePath, content)` (line 172): mkdir of the parent is
implicit; the write succeeds unless the world injects a fault at that path. -/
def writeFileM (w : World) (p : String) (ct : Content) : M Unit := fun c =>
  if w.writeOk p then Res.ok () { c with fs := fsSet c.fs p (Entry.file ct) }
  else Res.err (writeErrMsg p) c

/-- `_copyPath(fromPath, toPath)` (line 178): `fs.cp` recursive — the whole
entry is duplicated; throws if the source is missing. -/
def copyPathM (fromPath toPath : String) : M Unit := fun c =>
  match fsGet c.fs fromPath with
  | some e => Res.ok () { c with fs := fsSet c.fs toPath e }
  | none => Res.err (enoentMsg fromPath) c

/-- `fs.access(p)` (throws for a missing path). -/
def accessM (p : String) : M Unit := fun c =>
  match fsGet c.fs p with
  | some _ => Res.ok () c
  | none => Res.err (enoentMsg p) c

/-- `JSON.parse` on file contents: inverts the injective serialization of a
structured value; raw text is modelled as non-JSON. -/
def jsonParse : Content → Option JValue
  | .json v => some v
  | .text _ => none

/-! ## Repository-effect helpers -/

/-- Effect of a successful `git clone URL gitDir` (line 209): metadata
appears; the checkout adopts the remote branch tree (if the remote is
nonempty) into HEAD, index, and the working tree under `gitDir`. -/
def cloneEffect (c : Config) : Config :=
  match c.remote with
  | some t =>
      { c with
        repo := { present := true, head := some t, index := t }
      , fs := t.foldl (fun fs kv => fsSet fs (resolveGitPath kv.1) kv.2) c.fs }
  | none => { c with repo := { present := true, head := none, index := [] } }

/-- Effect of a successful `git init` (line 211). -/
def initEffect (c : Config) : Config :=
  { c with repo := { present := true, head := none, index := [] } }

/-- Effect of a successful `git add f1 …` (line 233): stage the working-tree
contents of each path present under `gitDir` into the index. -/
def stageEffect (files : List String) (c : Config) : Config :=
  { c with
    repo :=
      { c.repo with
        index :=
          files.foldl
            (fun idx f =>
              match fsGet c.fs (resolveGitPath f) with
              | some e => fsSet idx f e
              | none => idx)
            c.repo.index } }

/-- Effect of a successful commit (amend or initial, line 246): HEAD becomes
the staged tree. -/
def commitEffect (c : Config) : Config :=
  { c with repo := { c.repo with head := some c.repo.index } }

/-- Effect of a successful `git push origin branch --force` (line 262): the
remote branch becomes the local HEAD snapshot. -/
def pushEffect (c : Config) : Config :=
  { c with remote := c.repo.head }

/-! ## The manager's methods -/

/-- `_prepareGitEnv` (line 183): create the askpass helper directory and
script and remember it.  The helper script itself is opaque text. -/
def askPassDir : String := pathJoin baseDir "gitstore-askpass"

def askPassFile : String := pathJoin askPassDir "askpass.sh"

def askPassScript : String := "#!/bin/sh case Username echo credentials esac"

def prepareGitEnv (w : World) : M Unit := do
  mkdirM askPassDir
  writeFileM w askPassFile (Content.text askPassScript)
  modifyM (fun c =>
    { c with st := { c.st with askPass := some askPassFile, gitEnvReady := true } })

/-- `_pullLatest` (line 229): `git pull origin branch --rebase`.  A success
is modelled as a no-op on files (after the store's force-pushes, local state
is authoritative); a failure throws. -/
def pullLatest (w : World) : M Unit := runGit w .pull

/-- `_checkoutBranch` (line 221): try `checkout branch`, on failure
`checkout -b branch` (which may itself throw). -/
def checkoutBranch (w : World) : M Unit :=
  tryM (runGit w .checkout) (fun _ => runGit w .checkoutNew)

/-- Paths currently on disk strictly inside `gitDir` (`fs.readdir(gitDir)`,
line 207). -/
def gitDirEntries (c : Config) : Tree :=
  c.fs.filter (fun kv => strStarts kv.1 (gitDir ++ "/"))

/-- `_prepareRepository` (line 204). -/
def prepareRepository (w : World) : M Unit := do
  let c ← getM
  if c.repo.present then pure () else
    if gitDirEntries c = [] then do
      runGit w .clone
      modifyM cloneEffect
    else do
      runGit w .gitInit
      modifyM initEffect
      tryM (runGit w .remoteAdd) (fun _ => pure ())
  tryM (runGit w .fetch) (fun _ => pure ())
  checkoutBranch w
  tryM (pullLatest w) (fun _ => pure ())

/-- `_stageFiles(files)` (line 233): one `git add` invocation; on success
the paths are staged. -/
def stageFiles (w : World) (files : List String) : M Unit := do
  runGit w .add
  modifyM (stageEffect files)

/-- `_hasStagedChanges` (line 237): `git diff --cached --quiet`, one
invocation whose exit status is semantic — it reports differences exactly
when the index differs from the HEAD tree (empty tree before any commit). -/
def hasStagedChanges : M Bool := fun c =>
  Res.ok (decide (c.repo.index ≠ c.repo.head.getD [])) (recordGit .diffCached c)

/-- `_hasHead` (line 272): `git rev-parse --verify HEAD`, one invocation
whose outcome is semantic (does a commit exist). -/
def hasHead : M Bool := fun c =>
  Res.ok c.repo.head.isSome (recordGit .revParse c)

/-- `_commit` (line 246): amend when HEAD exists, else the initial commit;
either way a success makes HEAD the staged tree. -/
def commitM (w : World) : M Unit := do
  let h ← hasHead
  if h then do
    runGit w .commitAmend
    modifyM commitEffect
  else do
    runGit w .commitNew
    modifyM commitEffect

/-- The retry loop body of `_pushWithRetry` (lines 260-268), by remaining
attempts: try the force-push; on success report true; on failure record the
message in `error`, wait 3000 ms, and continue. -/
def pushLoop (w : World) : Nat → M Bool
  | 0 => pure false
  | n + 1 => fun c =>
      match runGit w .push c with
      | Res.ok _ c' => Res.ok true (pushEffect c')
      | Res.err e c' =>
          pushLoop w n
            { c' with
              st := { c'.st with error := some e }
            , trace := c'.trace ++ [GEvent.sleep 3000] }

/-- `_pushWithRetry(shouldPush)` (line 255): nothing to push reports success
without any invocation; otherwise up to 3 attempts. -/
def pushWithRetry (w : World) (shouldPush : Bool) : M Bool :=
  if shouldPush then pushLoop w 3 else pure true

/-- `_pickSource` (line 281): remote clone (unless LOCAL), then local
mirror, then a `<key>.example` default at the working location. -/
def pickSource (c : Config) (rel : String) : Option String :=
  if c.st.mode ≠ .LOCAL ∧ (fsGet c.fs (resolveGitPath rel)).isSome then
    some (resolveGitPath rel)
  else if (fsGet c.fs (resolveLocalPath rel)).isSome then
    some (resolveLocalPath rel)
  else if (fsGet c.fs (resolveWorkingPath rel ++ ".example")).isSome then
    some (resolveWorkingPath rel ++ ".example")
  else none

/-- `Array.from(new Set(xs))`: deduplicate keeping first occurrences. -/
def dedupList (xs : List String) : List String :=
  xs.foldl (fun acc y => if y ∈ acc then acc else acc ++ [y]) []

/-- `this.files = Array.from(new Set([...this.files, ...files]))` (line 52). -/
def mergeFiles (fl : List String) (c : Config) : Config :=
  { c with st := { c.st with files := dedupList (c.st.files ++ fl) } }

/-- `ensureInitialized(files = [])` (line 50). -/
def ensureInitialized (w : World) (files : List String) : M StateSnap := do
  (if files ≠ [] then modifyM (mergeFiles files) else pure ())
  let c ← getM
  if c.st.initializedF then getSnapM
  else do
    mkdirM baseDir
    mkdirM gitDir
    if missingEnv w ≠ [] then do
      modifyM (fun c =>
        { c with st := { c.st with
            mode := .LOCAL
          , error := some ("Missing env: " ++ String.intercalate ", " (missingEnv w))
          , initializedF := true } })
      getSnapM
    else do
      tryM
        (do
          prepareGitEnv w
          prepareRepository w
          modifyM (fun c =>
            { c with st := { c.st with mode := .ACTIVE, pending := false, error := none } }))
        (fun e =>
          modifyM (fun c =>
            { c with st := { c.st with mode := .LOCAL, error := some e } }))
      modifyM (fun c => { c with st := { c.st with initializedF := true } })
      getSnapM

/-- The per-key body of the materialization loop (lines 95-122). -/
def matBody (w : World) (rel : String) : M Unit := do
  let c ← getM
  match pickSource c rel with
  | none => pure ()
  | some src => do
      let e ← statM src
      match e with
      | Entry.dir _ => do
          copyPathM src (resolveWorkingPath rel)
          copyPathM src (resolveLocalPath rel)
          (if c.st.mode ≠ .LOCAL then copyPathM src (resolveGitPath rel) else pure ())
      | Entry.file ct => do
          writeFileM w (resolveWorkingPath rel) ct
          writeFileM w (resolveLocalPath rel) ct
          (if c.st.mode ≠ .LOCAL then writeFileM w (resolveGitPath rel) ct else pure ())

def matLoop (w : World) : List String → M Unit
  | [] => pure ()
  | rel :: rest => do
      matBody w rel
      matLoop w rest

/-- `ensureWorkingCopies(files = this.files)` (line 84): initialize, pull
(unless LOCAL; a failure degrades the mode and marks a pending push), then
materialize each key from the best available source. -/
def ensureWorkingCopies (w : World) (files : Option (List String)) : M StateSnap := do
  let c₀ ← getM
  let fl := files.getD c₀.st.files
  let _ ← ensureInitialized w fl
  let c ← getM
  (if c.st.mode ≠ .LOCAL then
    tryM (pullLatest w)
      (fun e =>
        modifyM (fun c =>
          { c with st := { c.st with mode := .DEGRADED, error := some e, pending := true } }))
  else pure ())
  matLoop w fl
  getSnapM

/-- `readJson(relativePath)` (line 127). -/
def readJson (w : World) (rel : String) : M JValue := do
  let _ ← ensureWorkingCopies w (some [rel])
  let ct ← readFileM (resolveWorkingPath rel)
  match jsonParse ct with
  | some v => pure v
  | none => throwM jsonErrMsg

/-- `writeJson(relativePath, data)` (line 134). -/
def writeJson (w : World) (rel : String) (data : JSData) : M StateSnap := do
  let _ ← ensureInitialized w [rel]
  let content := toContent data
  writeFileM w (resolveWorkingPath rel) content
  writeFileM w (resolveLocalPath rel) content
  let c ← getM
  if c.st.mode = .LOCAL then do
    modifyM (fun c => { c with st := { c.st with pending := false } })
    getSnapM
  else do
    writeFileM w (resolveGitPath rel) content
    stageFiles w [rel]
    let hasChanges ← hasStagedChanges
    (if hasChanges then commitM w else pure ())
    let c₂ ← getM
    let pushed ← pushWithRetry w (hasChanges || c₂.st.pending)
    (if pushed then
      modifyM (fun c =>
        { c with st := { c.st with mode := .ACTIVE, pending := false, error := none } })
    else
      modifyM (fun c =>
        { c with st := { c.st with mode := .DEGRADED, pending := true } }))
    getSnapM

/-- `syncDirectory(relativeDir)` (line 299). -/
def syncDirectory (w : World) (rel : String) : M StateSnap := do
  let _ ← ensureInitialized w [rel]
  let _ ← ensureWorkingCopies w (some [rel])
  let c ← getM
  if (fsGet c.fs (resolveWorkingPath rel)).isNone then getSnapM
  else do
    copyPathM (resolveWorkingPath rel) (resolveLocalPath rel)
    if c.st.mode = .LOCAL then do
      modifyM (fun c => { c with st := { c.st with pending := false } })
      getSnapM
    else do
      copyPathM (resolveWorkingPath rel) (resolveGitPath rel)
      stageFiles w [rel]
      let hasChanges ← hasStagedChanges
      (if hasChanges then commitM w else pure ())
      let c₂ ← getM
      let pushed ← pushWithRetry w (hasChanges || c₂.st.pending)
      (if pushed then
        modifyM (fun c =>
          { c with st := { c.st with mode := .ACTIVE, pending := false, error := none } })
      else
        modifyM (fun c =>
          { c with st := { c.st with mode := .DEGRADED, pending := true } }))
      getSnapM

/-- Arguments of `syncAllInStore` (line 375) with their defaults. -/
structure SyncAllArgs where
  configPath : String := "config.json"
  configData : Option JSData := none
  providerPoolsPath : String := "provider_pools.json"
  providerPoolsData : Option JSData := none
  includeConfigsDir : Bool := true
  includePwd : Bool := true

/-- `syncAllInStore` (line 375): materialize the targets, then write both
documents, optionally sync the configs directory and the pwd file; any
failure inside that phase is converted into state (DEGRADED only from
ACTIVE) instead of propagating. -/
def syncAllInStore (w : World) (a : SyncAllArgs) : M StateSnap := do
  let _ ← ensureInitialized w [a.configPath, a.providerPoolsPath]
  let targets :=
    [a.configPath, a.providerPoolsPath]
      ++ (if a.includePwd then ["pwd"] else [])
      ++ (if a.includeConfigsDir then ["configs"] else [])
  let _ ← ensureWorkingCopies w (some targets)
  tryM
    (do
      let _ ← writeJson w a.configPath (a.configData.getD (JSData.val (.jobj [])))
      let _ ← writeJson w a.providerPoolsPath (a.providerPoolsData.getD (JSData.val (.jobj [])))
      (if a.includeConfigsDir then
        tryM
          (do
            accessM (resolveWorkingPath "configs")
            let _ ← syncDirectory w "configs"
            pure ())
          (fun _ => pure ())
      else pure ())
      (if a.includePwd then do
        let c ← getM
        if (fsGet c.fs (resolveWorkingPath "pwd")).isSome then do
          let pc ← readFileM (resolveWorkingPath "pwd")
          let _ ← writeJson w "pwd" (JSData.str pc)
          pure ()
        else pure ()
      else pure ()))
    (fun e =>
      modifyM (fun c =>
        { c with st := { c.st with
            mode := if c.st.mode = .ACTIVE then .DEGRADED else c.st.mode
          , error := some e } }))
  getSnapM

/-! ## Public operations and sequences of them -/

/-- One public operation of the store facade. -/
inductive Op
  | opInit (files : List String)
  | opMaterialize (files : Option (List String))
  | opRead (key : String)
  | opWrite (key : String) (data : JSData)
  | opSyncDir (d : String)
  | opSyncAll (a : SyncAllArgs)

/-- Run one public operation, discarding its return value. -/
def runOp (w : World) : Op → M Unit
  | .opInit fl => do
      let _ ← ensureInitialized w fl
      pure ()
  | .opMaterialize fl => do
      let _ ← ensureWorkingCopies w fl
      pure ()
  | .opRead k => do
      let _ ← readJson w k
      pure ()
  | .opWrite k d => do
      let _ ← writeJson w k d
      pure ()
  | .opSyncDir d => do
      let _ ← syncDirectory w d
      pure ()
  | .opSyncAll a => do
      let _ ← syncAllInStore w a
      pure ()

/-- The configuration after one public operation: a thrown exception leaves
the singleton's state as mutated so far. -/
def step (w : World) (c : Config) (op : Op) : Config := (runOp w op c).cfg

/-- The configuration after a sequence of public operations. -/
def runOps (w : World) (ops : List Op) (c : Config) : Config :=
  ops.foldl (step w) c
/-! ## Concrete worlds and configurations (for witnesses) -/

/-- Credentials present, every git invocation succeeds, all writes succeed. -/
def wOk : World :=
  { env := fun k => if k ∈ requiredEnv then some "u" else none
  , gitOk := fun _ _ => true
  , writeOk := fun _ => true }

/-- Credentials present but every git invocation fails. -/
def wGitDown : World :=
  { env := fun k => if k ∈ requiredEnv then some "u" else none
  , gitOk := fun _ _ => false
  , writeOk := fun _ => true }

/-- Credentials present; only pushes fail. -/
def wPushDown : World :=
  { env := fun k => if k ∈ requiredEnv then some "u" else none
  , gitOk := fun _ cmd => decide (cmd ≠ GitCmd.push)
  , writeOk := fun _ => true }

/-- Credentials present; the remote is unreachable (pull and push fail). -/
def wRemoteDown : World :=
  { env := fun k => if k ∈ requiredEnv then some "u" else none
  , gitOk := fun _ cmd => decide (cmd ≠ GitCmd.push ∧ cmd ≠ GitCmd.pull)
  , writeOk := fun _ => true }

/-- No credentials in the environment at all. -/
def wNoEnv : World :=
  { env := fun _ => none, gitOk := fun _ _ => true, writeOk := fun _ => true }

/-- Credentials present, git healthy, but writing the working copy of
config.json fails (e.g. a permission problem). -/
def wWriteDown : World :=
  { env := fun k => if k ∈ requiredEnv then some "u" else none
  , gitOk := fun _ _ => true
  , writeOk := fun p => decide (p ≠ resolveWorkingPath "config.json") }

/-- An already-initialized store in ACTIVE mode over an empty disk. -/
def cReady : Config :=
  { st :=
      { files := defaultFiles, branch := "main", mode := .ACTIVE
      , pending := false, error := none, initializedF := true
      , gitEnvReady := true, askPass := some askPassFile }
  , fs := []
  , repo := { present := true, head := none, index := [] }
  , remote := none
  , trace := []
  , gitCount := 0 }

/-- Two distinct structured documents. -/
def vA : JValue := .jobj [("a", JPrim.ji 1)]

def vB : JValue := .jobj [("a", JPrim.ji 2)]

/-- Ready store whose remote clone and local mirror disagree on config.json. -/
def cTier : Config :=
  { cReady with
    fs := [(resolveGitPath "config.json", Entry.file (Content.json vA)),
           (resolveLocalPath "config.json", Entry.file (Content.json vB))] }

/-- Ready store with config.json only in the local mirror. -/
def cLocalOnly : Config :=
  { cReady with
    fs := [(resolveLocalPath "config.json", Entry.file (Content.json vB))] }

/-- Ready store with only a config.json.example default at the working
location. -/
def cExampleOnly : Config :=
  { cReady with
    fs := [(resolveWorkingPath "config.json" ++ ".example", Entry.file (Content.json vA))] }

/-- Ready store whose HEAD commit already holds exactly config.json with
document vA, with the index agreeing. -/
def cSynced : Config :=
  { cReady with
    repo := { present := true
            , head := some [("config.json", Entry.file (Content.json vA))]
            , index := [("config.json", Entry.file (Content.json vA))] } }

/-- The same store but with a pending push from an earlier failure. -/
def cSyncedPending : Config :=
  { cSynced with st := { cSynced.st with mode := .DEGRADED, pending := true } }

/-- Credentials present; only `git add` fails. -/
def wAddFail : World :=
  { env := fun k => if k ∈ requiredEnv then some "u" else none
  , gitOk := fun _ cmd => decide (cmd ≠ GitCmd.add)
  , writeOk := fun _ => true }

/-- sync-all arguments restricted to the two documents. -/
def argsC9 : SyncAllArgs :=
  { configPath := "config.json", configData := none
  , providerPoolsPath := "provider_pools.json", providerPoolsData := none
  , includeConfigsDir := false, includePwd := false }

/-- An initialized store stuck in LOCAL mode (missing credentials). -/
def cLocalMode : Config :=
  { cReady with st := { cReady.st with mode := .LOCAL, gitEnvReady := false, askPass := none } }

/-- The LOCAL store with a raw-text pwd file in the local mirror. -/
def cLocalText : Config :=
  { cLocalMode with fs := [(resolveLocalPath "pwd", Entry.file (Content.text "hello"))] }

/-! ## Invariant predicates and effect classifications -/

/-- Hoare triples over the store monad: from any configuration satisfying
`P`, running `x` leaves a configuration satisfying `Q` (whether it returned
or threw — the singleton keeps its mutations either way). -/
def HoareC (P : Config → Prop) (x : M α) (Q : Config → Prop) : Prop :=
  ∀ c, P c → Q ((x c).cfg)

/-- Computations that leave the manager fields and the trace untouched
(pure filesystem work). -/
def KeepsStTrace (x : M α) : Prop :=
  ∀ c, ((x c).cfg).st = c.st ∧ ((x c).cfg).trace = c.trace

/-- Computations that leave the manager fields untouched. -/
def KeepsSt (x : M α) : Prop := ∀ c, ((x c).cfg).st = c.st

/-- Computations that may touch only the `error`, `files`, `branch`,
`gitEnvReady` and `askPass` fields of the manager state: mode, pending and
the initialized flag survive. -/
def KeepsMPI (x : M α) : Prop :=
  ∀ c, ((x c).cfg).st.mode = c.st.mode ∧ ((x c).cfg).st.pending = c.st.pending ∧
    ((x c).cfg).st.initializedF = c.st.initializedF

/-- The inductive invariant behind C7: pending is false whenever the mode
is LOCAL, and any non-LOCAL mode certifies that initialization completed
(the auxiliary conjunct needed to make the invariant inductive). -/
def SInv (c : Config) : Prop :=
  (c.st.mode = Mode.LOCAL → c.st.pending = false) ∧
  (c.st.mode ≠ Mode.LOCAL → c.st.initializedF = true)

/-- The strengthened form that holds from the first `ensureInitialized` on. -/
def SInvI (c : Config) : Prop :=
  (c.st.mode = Mode.LOCAL → c.st.pending = false) ∧ c.st.initializedF = true

/-- Predicate for the initialization phase: pending is still clear. -/
def PendFalse (c : Config) : Prop := c.st.pending = false

/-- A fresh clone slot: no repository present yet. -/
def repoEmpty : Repo := { present := false, head := none, index := [] }

/-- Computations that leave the mode and the external trace untouched. -/
def KeepsMT (x : M α) : Prop :=
  ∀ c, ((x c).cfg).st.mode = c.st.mode ∧ ((x c).cfg).trace = c.trace

/-- The invariant behind C1: the mode is LOCAL and no external process has
ever been invoked (the event trace is empty). -/
def LInv (c : Config) : Prop := c.st.mode = Mode.LOCAL ∧ c.trace = []

/-! ## Helper lemmas -/

theorem fsGet_fsSet (fs : Tree) (p q : String) (e : Entry) :
    fsGet (fsSet fs p e) q = if p = q then some e else fsGet fs q := by
  unfold fsSet
  by_cases h : p = q
  · simp [fsGet, h]
  · simp only [fsGet, h, if_neg, if_false]
    induction fs with
    | nil => simp [fsGet]
    | cons kv t ih =>
        by_cases hk : kv.1 = p
        · simpa [fsGet, hk, h, List.filter] using ih
        · cases kv with
          | mk k v =>
              simp only [List.filter]
              by_cases hq : k = q
              · simp_all [fsGet]
              · simp_all [fsGet]

@[simp] theorem fsGet_fsSet_self (fs : Tree) (p : String) (e : Entry) :
    fsGet (fsSet fs p e) p = some e := by
  simp [fsGet_fsSet]

@[simp] theorem mergeFiles_st_mode (fl : List String) (c : Config) :
    (mergeFiles fl c).st.mode = c.st.mode := rfl

@[simp] theorem mergeFiles_st_pending (fl : List String) (c : Config) :
    (mergeFiles fl c).st.pending = c.st.pending := rfl

@[simp] theorem mergeFiles_st_error (fl : List String) (c : Config) :
    (mergeFiles fl c).st.error = c.st.error := rfl

@[simp] theorem mergeFiles_st_branch (fl : List String) (c : Config) :
    (mergeFiles fl c).st.branch = c.st.branch := rfl

@[simp] theorem mergeFiles_st_initializedF (fl : List String) (c : Config) :
    (mergeFiles fl c).st.initializedF = c.st.initializedF := rfl

@[simp] theorem mergeFiles_fs (fl : List String) (c : Config) :
    (mergeFiles fl c).fs = c.fs := rfl

@[simp] theorem mergeFiles_repo (fl : List String) (c : Config) :
    (mergeFiles fl c).repo = c.repo := rfl

@[simp] theorem mergeFiles_trace (fl : List String) (c : Config) :
    (mergeFiles fl c).trace = c.trace := rfl

@[simp] theorem mergeFiles_gitCount (fl : List String) (c : Config) :
    (mergeFiles fl c).gitCount = c.gitCount := rfl

@[simp] theorem mergeFiles_remote (fl : List String) (c : Config) :
    (mergeFiles fl c).remote = c.remote := rfl

@[simp] theorem mkSnap_mergeFiles (fl : List String) (c : Config) :
    mkSnap (mergeFiles fl c).st = mkSnap c.st := rfl

@[simp] theorem recordGit_st (cmd : GitCmd) (c : Config) :
    (recordGit cmd c).st = c.st := rfl

@[simp] theorem recordGit_fs (cmd : GitCmd) (c : Config) :
    (recordGit cmd c).fs = c.fs := rfl

@[simp] theorem recordGit_repo (cmd : GitCmd) (c : Config) :
    (recordGit cmd c).repo = c.repo := rfl

@[simp] theorem recordGit_remote (cmd : GitCmd) (c : Config) :
    (recordGit cmd c).remote = c.remote := rfl

@[simp] theorem recordGit_trace (cmd : GitCmd) (c : Config) :
    (recordGit cmd c).trace = c.trace ++ [GEvent.git cmd] := rfl

@[simp] theorem recordGit_gitCount (cmd : GitCmd) (c : Config) :
    (recordGit cmd c).gitCount = c.gitCount + 1 := rfl

/-- The three sleeps-and-retries of an always-failing push loop, unfolded. -/
theorem pushLoop_succ_fail (w : World) (c : Config) (n : Nat)
    (h : w.gitOk c.gitCount GitCmd.push = false) :
    pushLoop w (n + 1) c =
      pushLoop w n
        { c with
          st := { c.st with error := some (gitErrMsg GitCmd.push) }
        , trace := c.trace ++ [GEvent.git GitCmd.push, GEvent.sleep 3000]
        , gitCount := c.gitCount + 1 } := by
  simp [pushLoop, runGit, recordGit, h]

theorem pushLoop_succ_ok (w : World) (c : Config) (n : Nat)
    (h : w.gitOk c.gitCount GitCmd.push = true) :
    pushLoop w (n + 1) c = Res.ok true (pushEffect (recordGit GitCmd.push c)) := by
  simp [pushLoop, runGit, h]

theorem pushLoop_allFail (w : World) (c : Config)
    (h : ∀ n, w.gitOk n GitCmd.push = false) :
    pushLoop w 3 c =
      Res.ok false
        { c with
          st := { c.st with error := some (gitErrMsg GitCmd.push) }
        , trace := c.trace ++
            [GEvent.git GitCmd.push, GEvent.sleep 3000,
             GEvent.git GitCmd.push, GEvent.sleep 3000,
             GEvent.git GitCmd.push, GEvent.sleep 3000]
        , gitCount := c.gitCount + 3 } := by
  rw [pushLoop_succ_fail w c 2 (h _), pushLoop_succ_fail w _ 1 (h _),
    pushLoop_succ_fail w _ 0 (h _)]
  simp [pushLoop]

theorem fsGet_set3 (fs : Tree) (p1 p2 p3 : String) (e : Entry) :
    fsGet (fsSet (fsSet (fsSet fs p1 e) p2 e) p3 e) p1 = some e ∧
    fsGet (fsSet (fsSet (fsSet fs p1 e) p2 e) p3 e) p2 = some e ∧
    fsGet (fsSet (fsSet (fsSet fs p1 e) p2 e) p3 e) p3 = some e := by
  refine ⟨?_, ?_, ?_⟩ <;> simp [fsGet_fsSet]

/-- `ensureInitialized` on an already-initialized store only merges the
requested keys into the tracked set. -/
theorem ensureInitialized_already (w : World) (fl : List String) (c : Config)
    (h : c.st.initializedF = true) (hfl : fl ≠ []) :
    ensureInitialized w fl c = Res.ok (mkSnap c.st) (mergeFiles fl c) := by
  unfold ensureInitialized
  simp [hfl, h]

/-- The materialization body when the remote-clone tier holds a file and the
store is not LOCAL: the file is copied to all three tiers. -/
theorem matBody_gitFile (w : World) (rel : String) (c : Config) (ct : Content)
    (hmode : c.st.mode ≠ Mode.LOCAL)
    (hgit : fsGet c.fs (resolveGitPath rel) = some (Entry.file ct))
    (hw : w.writeOk (resolveWorkingPath rel) = true)
    (hl : w.writeOk (resolveLocalPath rel) = true)
    (hg : w.writeOk (resolveGitPath rel) = true) :
    matBody w rel c =
      Res.ok ()
        { c with
          fs := fsSet (fsSet (fsSet c.fs (resolveWorkingPath rel) (Entry.file ct))
                  (resolveLocalPath rel) (Entry.file ct))
                  (resolveGitPath rel) (Entry.file ct) } := by
  unfold matBody
  simp [pickSource, hmode, hgit, statM, writeFileM, hw, hl, hg]

theorem bind_ok {α β : Type} {x : M α} {f : α → M β} {c c' : Config} {a : α}
    (h : x c = Res.ok a c') : (x >>= f) c = f a c' := by
  simp [bind_apply, h]

theorem bind_err {α β : Type} {x : M α} {f : α → M β} {c c' : Config} {e : String}
    (h : x c = Res.err e c') : (x >>= f) c = Res.err e c' := by
  simp [bind_apply, h]

/-- `ensureWorkingCopies` over one key resident in the remote clone, with a
healthy pull: the file is copied to all three tiers, one pull is recorded. -/
theorem ewc_gitFile_pullOk (w : World) (rel : String) (c : Config) (ct : Content)
    (hinit : c.st.initializedF = true)
    (hmode : c.st.mode ≠ Mode.LOCAL)
    (hgit : fsGet c.fs (resolveGitPath rel) = some (Entry.file ct))
    (hw : w.writeOk (resolveWorkingPath rel) = true)
    (hl : w.writeOk (resolveLocalPath rel) = true)
    (hg : w.writeOk (resolveGitPath rel) = true)
    (hp : w.gitOk c.gitCount GitCmd.pull = true) :
    ensureWorkingCopies w (some [rel]) c =
      Res.ok (mkSnap c.st)
        { c with
          st := { c.st with files := dedupList (c.st.files ++ [rel]) }
        , fs := fsSet (fsSet (fsSet c.fs (resolveWorkingPath rel) (Entry.file ct))
                  (resolveLocalPath rel) (Entry.file ct))
                  (resolveGitPath rel) (Entry.file ct)
        , trace := c.trace ++ [GEvent.git GitCmd.pull]
        , gitCount := c.gitCount + 1 } := by
  simp [ensureWorkingCopies, ensureInitialized, matLoop, matBody, pickSource, statM,
    writeFileM, tryM, pullLatest, runGit, recordGit, mergeFiles, mkSnap,
    hinit, hmode, hgit, hw, hl, hg, hp]

/-- `ensureWorkingCopies` over one key resident in the remote clone, with a
failing pull: the mode degrades, a pending push is marked, the message is
recorded, and the file is still copied to all three tiers. -/
theorem ewc_gitFile_pullFail (w : World) (rel : String) (c : Config) (ct : Content)
    (hinit : c.st.initializedF = true)
    (hmode : c.st.mode ≠ Mode.LOCAL)
    (hgit : fsGet c.fs (resolveGitPath rel) = some (Entry.file ct))
    (hw : w.writeOk (resolveWorkingPath rel) = true)
    (hl : w.writeOk (resolveLocalPath rel) = true)
    (hg : w.writeOk (resolveGitPath rel) = true)
    (hp : w.gitOk c.gitCount GitCmd.pull = false) :
    ensureWorkingCopies w (some [rel]) c =
      Res.ok
        { mode := .DEGRADED, pending := true, error := some (gitErrMsg GitCmd.pull)
        , branch := c.st.branch }
        { c with
          st := { c.st with
                  files := dedupList (c.st.files ++ [rel]),
                  mode := .DEGRADED,
                  pending := true,
                  error := some (gitErrMsg GitCmd.pull) }
        , fs := fsSet (fsSet (fsSet c.fs (resolveWorkingPath rel) (Entry.file ct))
                  (resolveLocalPath rel) (Entry.file ct))
                  (resolveGitPath rel) (Entry.file ct)
        , trace := c.trace ++ [GEvent.git GitCmd.pull]
        , gitCount := c.gitCount + 1 } := by
  simp [ensureWorkingCopies, ensureInitialized, matLoop, matBody, pickSource, statM,
    writeFileM, tryM, pullLatest, runGit, recordGit, mergeFiles, mkSnap,
    hinit, hmode, hgit, hw, hl, hg, hp]

/-- Reading a key present in the remote clone with structured content `v`
returns `v`, whatever the pull outcome. -/
theorem readJson_remoteWins (w : World) (rel : String) (c : Config) (v : JValue)
    (hinit : c.st.initializedF = true)
    (hmode : c.st.mode ≠ Mode.LOCAL)
    (hgit : fsGet c.fs (resolveGitPath rel) = some (Entry.file (Content.json v)))
    (hw : w.writeOk (resolveWorkingPath rel) = true)
    (hl : w.writeOk (resolveLocalPath rel) = true)
    (hg : w.writeOk (resolveGitPath rel) = true) :
    ∃ c'', readJson w rel c = Res.ok v c'' := by
  by_cases hp : w.gitOk c.gitCount GitCmd.pull
  · refine ⟨{ c with
      st := { c.st with files := dedupList (c.st.files ++ [rel]) }
    , fs := fsSet (fsSet (fsSet c.fs (resolveWorkingPath rel) (Entry.file (Content.json v)))
              (resolveLocalPath rel) (Entry.file (Content.json v)))
              (resolveGitPath rel) (Entry.file (Content.json v))
    , trace := c.trace ++ [GEvent.git GitCmd.pull]
    , gitCount := c.gitCount + 1 }, ?_⟩
    unfold readJson
    rw [bind_ok (ewc_gitFile_pullOk w rel c _ hinit hmode hgit hw hl hg hp)]
    simp [readFileM, jsonParse,
      (fsGet_set3 c.fs (resolveWorkingPath rel) (resolveLocalPath rel)
        (resolveGitPath rel) (Entry.file (Content.json v))).1]
  · refine ⟨{ c with
      st := { c.st with
              files := dedupList (c.st.files ++ [rel]),
              mode := .DEGRADED,
              pending := true,
              error := some (gitErrMsg GitCmd.pull) }
    , fs := fsSet (fsSet (fsSet c.fs (resolveWorkingPath rel) (Entry.file (Content.json v)))
              (resolveLocalPath rel) (Entry.file (Content.json v)))
              (resolveGitPath rel) (Entry.file (Content.json v))
    , trace := c.trace ++ [GEvent.git GitCmd.pull]
    , gitCount := c.gitCount + 1 }, ?_⟩
    unfold readJson
    rw [bind_ok (ewc_gitFile_pullFail w rel c _ hinit hmode hgit hw hl hg
      (Bool.of_not_eq_true hp))]
    simp [readFileM, jsonParse,
      (fsGet_set3 c.fs (resolveWorkingPath rel) (resolveLocalPath rel)
        (resolveGitPath rel) (Entry.file (Content.json v))).1]

/-! ## Claim C3 -/

/-- C3: when a push is required and every attempt fails, `_pushWithRetry`
invokes the underlying force-push exactly 3 times (three `git push` events
in the trace) with a fixed 3-second delay between attempts, updates the
state's error field after each individual failure (second conjunct: one
failed attempt immediately records the message before the remaining
retries run), and then reports failure as a return value without throwing
(`Res.ok false`); when no push is required it reports success without
invoking the underlying tool at all (the configuration, hence the trace,
is unchanged). -/
theorem claim_C3 :
    (∀ (w : World) (c : Config), (∀ n, w.gitOk n GitCmd.push = false) →
      pushWithRetry w true c =
        Res.ok false
          { c with
            st := { c.st with error := some (gitErrMsg GitCmd.push) }
          , trace := c.trace ++
              [GEvent.git GitCmd.push, GEvent.sleep 3000,
               GEvent.git GitCmd.push, GEvent.sleep 3000,
               GEvent.git GitCmd.push, GEvent.sleep 3000]
          , gitCount := c.gitCount + 3 }) ∧
    (∀ (w : World) (c : Config) (n : Nat), w.gitOk c.gitCount GitCmd.push = false →
      pushLoop w (n + 1) c =
        pushLoop w n
          { c with
            st := { c.st with error := some (gitErrMsg GitCmd.push) }
          , trace := c.trace ++ [GEvent.git GitCmd.push, GEvent.sleep 3000]
          , gitCount := c.gitCount + 1 }) ∧
    (∀ (w : World) (c : Config), pushWithRetry w false c = Res.ok true c) := by
  refine ⟨fun w c h => ?_, fun w c n h => pushLoop_succ_fail w c n h, fun w c => rfl⟩
  show pushLoop w 3 c = _
  exact pushLoop_allFail w c h

/-- C3 witness: the always-failing world at the ready configuration. -/
theorem claim_C3_witness :
    pushWithRetry wGitDown true cReady =
        Res.ok false
          { cReady with
            st := { cReady.st with error := some (gitErrMsg GitCmd.push) }
          , trace :=
              [GEvent.git GitCmd.push, GEvent.sleep 3000,
               GEvent.git GitCmd.push, GEvent.sleep 3000,
               GEvent.git GitCmd.push, GEvent.sleep 3000]
          , gitCount := 3 } ∧
      pushWithRetry wGitDown false cReady = Res.ok true cReady := by
  constructor
  · have h := claim_C3.1 wGitDown cReady (fun n => rfl)
    simpa using h
  · exact claim_C3.2.2 wGitDown cReady

/-! ## Claim C4 -/

/-- C4: source selection follows the exact precedence remote clone (only
when mode ≠ LOCAL) → local mirror → "key.example" at the working location →
none; and when mode ≠ LOCAL and a key exists in both the remote clone and
the local mirror with different content, a read returns the remote-clone
content. -/
theorem claim_C4 :
    (∀ (c : Config) (rel : String), c.st.mode ≠ Mode.LOCAL →
        (fsGet c.fs (resolveGitPath rel)).isSome = true →
        pickSource c rel = some (resolveGitPath rel)) ∧
    (∀ (c : Config) (rel : String),
        (c.st.mode = Mode.LOCAL ∨ fsGet c.fs (resolveGitPath rel) = none) →
        (fsGet c.fs (resolveLocalPath rel)).isSome = true →
        pickSource c rel = some (resolveLocalPath rel)) ∧
    (∀ (c : Config) (rel : String),
        (c.st.mode = Mode.LOCAL ∨ fsGet c.fs (resolveGitPath rel) = none) →
        fsGet c.fs (resolveLocalPath rel) = none →
        (fsGet c.fs (resolveWorkingPath rel ++ ".example")).isSome = true →
        pickSource c rel = some (resolveWorkingPath rel ++ ".example")) ∧
    (∀ (c : Config) (rel : String),
        (c.st.mode = Mode.LOCAL ∨ fsGet c.fs (resolveGitPath rel) = none) →
        fsGet c.fs (resolveLocalPath rel) = none →
        fsGet c.fs (resolveWorkingPath rel ++ ".example") = none →
        pickSource c rel = none) ∧
    (∀ (w : World) (c : Config) (rel : String) (v v' : JValue),
        c.st.initializedF = true → c.st.mode ≠ Mode.LOCAL →
        fsGet c.fs (resolveGitPath rel) = some (Entry.file (Content.json v)) →
        fsGet c.fs (resolveLocalPath rel) = some (Entry.file (Content.json v')) →
        v ≠ v' →
        w.writeOk (resolveWorkingPath rel) = true →
        w.writeOk (resolveLocalPath rel) = true →
        w.writeOk (resolveGitPath rel) = true →
        ∃ c'', readJson w rel c = Res.ok v c'') := by
  refine ⟨?_, ?_, ?_, ?_, ?_⟩
  · intro c rel hmode hgit
    simp [pickSource, hmode, hgit]
  · intro c rel hfirst hloc
    rcases hfirst with hmode | hgit
    · simp [pickSource, hmode, hloc]
    · simp [pickSource, hgit, hloc]
  · intro c rel hfirst hloc hex
    rcases hfirst with hmode | hgit
    · simp [pickSource, hmode, hloc, hex]
    · simp [pickSource, hgit, hloc, hex]
  · intro c rel hfirst hloc hex
    rcases hfirst with hmode | hgit
    · simp [pickSource, hmode, hloc, hex]
    · simp [pickSource, hgit, hloc, hex]
  · intro w c rel v v' hinit hmode hgit hloc hne hw hl hg
    exact readJson_remoteWins w rel c v hinit hmode hgit hw hl hg

/-- C4 witness: the precedence chain and the remote-wins read, each at a
concrete store. -/
theorem claim_C4_witness :
    pickSource cTier "config.json" = some (resolveGitPath "config.json") ∧
    pickSource cLocalOnly "config.json" = some (resolveLocalPath "config.json") ∧
    pickSource cExampleOnly "config.json" =
      some (resolveWorkingPath "config.json" ++ ".example") ∧
    pickSource cReady "config.json" = none ∧
    ∃ c'', readJson wOk "config.json" cTier = Res.ok vA c'' := by
  refine ⟨?_, ?_, ?_, ?_, ?_⟩
  · exact claim_C4.1 cTier "config.json" (by decide) (by rfl)
  · exact claim_C4.2.1 cLocalOnly "config.json" (Or.inr (by rfl)) (by rfl)
  · exact claim_C4.2.2.1 cExampleOnly "config.json" (Or.inr (by rfl)) (by rfl) (by rfl)
  · exact claim_C4.2.2.2.1 cReady "config.json" (Or.inr (by rfl)) (by rfl) (by rfl)
  · exact claim_C4.2.2.2.2 wOk cTier "config.json" vA vB (by rfl) (by decide)
      (by rfl) (by rfl) (by decide) (by rfl) (by rfl) (by rfl)

/-- `writeJson` of new content when every push attempt fails and the last
commit exists (amend path): the operation returns normally with mode
DEGRADED, pending, the push failure message, and all three tiers written. -/
theorem writeJson_pushExhaust_amend (w : World) (rel : String) (d : JSData)
    (c : Config) (t : Tree)
    (hinit : c.st.initializedF = true)
    (hmode : c.st.mode ≠ Mode.LOCAL)
    (hw : w.writeOk (resolveWorkingPath rel) = true)
    (hl : w.writeOk (resolveLocalPath rel) = true)
    (hg : w.writeOk (resolveGitPath rel) = true)
    (hadd : ∀ n, w.gitOk n GitCmd.add = true)
    (hamend : ∀ n, w.gitOk n GitCmd.commitAmend = true)
    (hpush : ∀ n, w.gitOk n GitCmd.push = false)
    (hh : c.repo.head = some t)
    (hnew : fsSet c.repo.index rel (Entry.file (toContent d)) ≠ t) :
    writeJson w rel d c =
      Res.ok
        { mode := .DEGRADED, pending := true, error := some (gitErrMsg GitCmd.push)
        , branch := c.st.branch }
        { c with
          st := { c.st with
                  files := dedupList (c.st.files ++ [rel]),
                  mode := .DEGRADED,
                  pending := true,
                  error := some (gitErrMsg GitCmd.push) }
        , fs := fsSet (fsSet (fsSet c.fs (resolveWorkingPath rel) (Entry.file (toContent d)))
                  (resolveLocalPath rel) (Entry.file (toContent d)))
                  (resolveGitPath rel) (Entry.file (toContent d))
        , repo := { present := c.repo.present
                  , head := some (fsSet c.repo.index rel (Entry.file (toContent d)))
                  , index := fsSet c.repo.index rel (Entry.file (toContent d)) }
        , trace := c.trace ++
            [GEvent.git GitCmd.add, GEvent.git GitCmd.diffCached,
             GEvent.git GitCmd.revParse, GEvent.git GitCmd.commitAmend,
             GEvent.git GitCmd.push, GEvent.sleep 3000,
             GEvent.git GitCmd.push, GEvent.sleep 3000,
             GEvent.git GitCmd.push, GEvent.sleep 3000]
        , gitCount := c.gitCount + 7 } := by
  simp [writeJson, ensureInitialized, mergeFiles, writeFileM, stageFiles, runGit,
    recordGit, stageEffect, hasStagedChanges, commitM, hasHead, commitEffect,
    pushWithRetry, pushLoop, mkSnap, hinit, hmode, hw, hl, hg, hadd, hamend, hpush,
    hh, hnew]

/-- `writeJson` of content when every push attempt fails and no commit
exists yet (initial-commit path). -/
theorem writeJson_pushExhaust_first (w : World) (rel : String) (d : JSData)
    (c : Config)
    (hinit : c.st.initializedF = true)
    (hmode : c.st.mode ≠ Mode.LOCAL)
    (hw : w.writeOk (resolveWorkingPath rel) = true)
    (hl : w.writeOk (resolveLocalPath rel) = true)
    (hg : w.writeOk (resolveGitPath rel) = true)
    (hadd : ∀ n, w.gitOk n GitCmd.add = true)
    (hfirst : ∀ n, w.gitOk n GitCmd.commitNew = true)
    (hpush : ∀ n, w.gitOk n GitCmd.push = false)
    (hh : c.repo.head = none) :
    writeJson w rel d c =
      Res.ok
        { mode := .DEGRADED, pending := true, error := some (gitErrMsg GitCmd.push)
        , branch := c.st.branch }
        { c with
          st := { c.st with
                  files := dedupList (c.st.files ++ [rel]),
                  mode := .DEGRADED,
                  pending := true,
                  error := some (gitErrMsg GitCmd.push) }
        , fs := fsSet (fsSet (fsSet c.fs (resolveWorkingPath rel) (Entry.file (toContent d)))
                  (resolveLocalPath rel) (Entry.file (toContent d)))
                  (resolveGitPath rel) (Entry.file (toContent d))
        , repo := { present := c.repo.present
                  , head := some (fsSet c.repo.index rel (Entry.file (toContent d)))
                  , index := fsSet c.repo.index rel (Entry.file (toContent d)) }
        , trace := c.trace ++
            [GEvent.git GitCmd.add, GEvent.git GitCmd.diffCached,
             GEvent.git GitCmd.revParse, GEvent.git GitCmd.commitNew,
             GEvent.git GitCmd.push, GEvent.sleep 3000,
             GEvent.git GitCmd.push, GEvent.sleep 3000,
             GEvent.git GitCmd.push, GEvent.sleep 3000]
        , gitCount := c.gitCount + 7 } := by
  have hne : fsSet c.repo.index rel (Entry.file (toContent d)) ≠ ([] : Tree) := by
    simp [fsSet]
  simp [writeJson, ensureInitialized, mergeFiles, writeFileM, stageFiles, runGit,
    recordGit, stageEffect, hasStagedChanges, commitM, hasHead, commitEffect,
    pushWithRetry, pushLoop, mkSnap, hinit, hmode, hw, hl, hg, hadd, hfirst,
    hpush, hh, hne]

/-- A write of new content in a non-LOCAL mode whose push fails on all
retries: returns normally, degrades, marks pending, records the push
message, and leaves the new content in the working and local tiers. -/
theorem writeJson_pushExhaust_any (w : World) (rel : String) (d : JSData) (c : Config)
    (hinit : c.st.initializedF = true)
    (hmode : c.st.mode ≠ Mode.LOCAL)
    (hw : w.writeOk (resolveWorkingPath rel) = true)
    (hl : w.writeOk (resolveLocalPath rel) = true)
    (hg : w.writeOk (resolveGitPath rel) = true)
    (hadd : ∀ n, w.gitOk n GitCmd.add = true)
    (hamend : ∀ n, w.gitOk n GitCmd.commitAmend = true)
    (hfirst : ∀ n, w.gitOk n GitCmd.commitNew = true)
    (hpush : ∀ n, w.gitOk n GitCmd.push = false)
    (hnew : fsSet c.repo.index rel (Entry.file (toContent d)) ≠ c.repo.head.getD []) :
    ∃ s c', writeJson w rel d c = Res.ok s c' ∧ s = mkSnap c'.st ∧
      c'.st.mode = Mode.DEGRADED ∧ c'.st.pending = true ∧
      c'.st.error = some (gitErrMsg GitCmd.push) ∧
      fsGet c'.fs (resolveWorkingPath rel) = some (Entry.file (toContent d)) ∧
      fsGet c'.fs (resolveLocalPath rel) = some (Entry.file (toContent d)) := by
  cases hh : c.repo.head with
  | some t =>
      have hnew' : fsSet c.repo.index rel (Entry.file (toContent d)) ≠ t := by
        simpa [hh] using hnew
      exact ⟨_, _, writeJson_pushExhaust_amend w rel d c t hinit hmode hw hl hg hadd
          hamend hpush hh hnew', rfl, rfl, rfl, rfl,
        (fsGet_set3 c.fs (resolveWorkingPath rel) (resolveLocalPath rel)
          (resolveGitPath rel) (Entry.file (toContent d))).1,
        (fsGet_set3 c.fs (resolveWorkingPath rel) (resolveLocalPath rel)
          (resolveGitPath rel) (Entry.file (toContent d))).2.1⟩
  | none =>
      exact ⟨_, _, writeJson_pushExhaust_first w rel d c hinit hmode hw hl hg hadd
          hfirst hpush hh, rfl, rfl, rfl, rfl,
        (fsGet_set3 c.fs (resolveWorkingPath rel) (resolveLocalPath rel)
          (resolveGitPath rel) (Entry.file (toContent d))).1,
        (fsGet_set3 c.fs (resolveWorkingPath rel) (resolveLocalPath rel)
          (resolveGitPath rel) (Entry.file (toContent d))).2.1⟩


/-! ## Claim C2 -/

/-- C2: a write of new content in a non-LOCAL mode whose push fails on all
retries does not throw (`Res.ok`); afterwards mode is DEGRADED, pending is
true, the last push failure message is in `error`, and the working-copy and
local-mirror locations for the key contain the newly written content. -/
theorem claim_C2 (w : World) (rel : String) (d : JSData) (c : Config)
    (hinit : c.st.initializedF = true)
    (hmode : c.st.mode ≠ Mode.LOCAL)
    (hw : w.writeOk (resolveWorkingPath rel) = true)
    (hl : w.writeOk (resolveLocalPath rel) = true)
    (hg : w.writeOk (resolveGitPath rel) = true)
    (hadd : ∀ n, w.gitOk n GitCmd.add = true)
    (hamend : ∀ n, w.gitOk n GitCmd.commitAmend = true)
    (hfirst : ∀ n, w.gitOk n GitCmd.commitNew = true)
    (hpush : ∀ n, w.gitOk n GitCmd.push = false)
    (hnew : fsSet c.repo.index rel (Entry.file (toContent d)) ≠ c.repo.head.getD []) :
    ∃ s c', writeJson w rel d c = Res.ok s c' ∧ s = mkSnap c'.st ∧
      c'.st.mode = Mode.DEGRADED ∧ c'.st.pending = true ∧
      c'.st.error = some (gitErrMsg GitCmd.push) ∧
      fsGet c'.fs (resolveWorkingPath rel) = some (Entry.file (toContent d)) ∧
      fsGet c'.fs (resolveLocalPath rel) = some (Entry.file (toContent d)) :=
  writeJson_pushExhaust_any w rel d c hinit hmode hw hl hg hadd hamend hfirst hpush hnew

/-- C2 witness: pushes always fail, everything else healthy, writing a
fresh document into the ready store. -/
theorem claim_C2_witness :
    ∃ s c', writeJson wPushDown "config.json" (JSData.val vA) cReady =
        Res.ok s c' ∧ s = mkSnap c'.st ∧
      c'.st.mode = Mode.DEGRADED ∧ c'.st.pending = true ∧
      c'.st.error = some (gitErrMsg GitCmd.push) ∧
      fsGet c'.fs (resolveWorkingPath "config.json") =
        some (Entry.file (toContent (JSData.val vA))) ∧
      fsGet c'.fs (resolveLocalPath "config.json") =
        some (Entry.file (toContent (JSData.val vA))) :=
  claim_C2 wPushDown "config.json" (JSData.val vA) cReady rfl (by decide)
    rfl rfl rfl (fun n => rfl) (fun n => rfl) (fun n => rfl) (fun n => rfl)
    (by decide)

/-- Identical-content write, nothing pending: no commit, no push attempt. -/
theorem writeJson_noDiff_noPending (w : World) (rel : String) (d : JSData)
    (c : Config)
    (hinit : c.st.initializedF = true)
    (hmode : c.st.mode ≠ Mode.LOCAL)
    (hw : w.writeOk (resolveWorkingPath rel) = true)
    (hl : w.writeOk (resolveLocalPath rel) = true)
    (hg : w.writeOk (resolveGitPath rel) = true)
    (hadd : ∀ n, w.gitOk n GitCmd.add = true)
    (hsame : fsSet c.repo.index rel (Entry.file (toContent d)) = c.repo.head.getD [])
    (hpend : c.st.pending = false) :
    writeJson w rel d c =
      Res.ok
        { mode := .ACTIVE, pending := false, error := none, branch := c.st.branch }
        { c with
          st := { c.st with
                  files := dedupList (c.st.files ++ [rel]),
                  mode := .ACTIVE,
                  pending := false,
                  error := none }
        , fs := fsSet (fsSet (fsSet c.fs (resolveWorkingPath rel) (Entry.file (toContent d)))
                  (resolveLocalPath rel) (Entry.file (toContent d)))
                  (resolveGitPath rel) (Entry.file (toContent d))
        , repo := { present := c.repo.present
                  , head := c.repo.head
                  , index := fsSet c.repo.index rel (Entry.file (toContent d)) }
        , trace := c.trace ++ [GEvent.git GitCmd.add, GEvent.git GitCmd.diffCached]
        , gitCount := c.gitCount + 2 } := by
  simp [writeJson, ensureInitialized, mergeFiles, writeFileM, stageFiles, runGit,
    recordGit, stageEffect, hasStagedChanges, pushWithRetry, mkSnap,
    hinit, hmode, hw, hl, hg, hadd, hsame, hpend]

/-- Identical-content write with a pending push from an earlier failure and
a now-healthy remote: no commit, but a catch-up push is attempted (and
succeeds). -/
theorem writeJson_noDiff_pending (w : World) (rel : String) (d : JSData)
    (c : Config)
    (hinit : c.st.initializedF = true)
    (hmode : c.st.mode ≠ Mode.LOCAL)
    (hw : w.writeOk (resolveWorkingPath rel) = true)
    (hl : w.writeOk (resolveLocalPath rel) = true)
    (hg : w.writeOk (resolveGitPath rel) = true)
    (hadd : ∀ n, w.gitOk n GitCmd.add = true)
    (hpushok : ∀ n, w.gitOk n GitCmd.push = true)
    (hsame : fsSet c.repo.index rel (Entry.file (toContent d)) = c.repo.head.getD [])
    (hpend : c.st.pending = true) :
    writeJson w rel d c =
      Res.ok
        { mode := .ACTIVE, pending := false, error := none, branch := c.st.branch }
        { c with
          st := { c.st with
                  files := dedupList (c.st.files ++ [rel]),
                  mode := .ACTIVE,
                  pending := false,
                  error := none }
        , fs := fsSet (fsSet (fsSet c.fs (resolveWorkingPath rel) (Entry.file (toContent d)))
                  (resolveLocalPath rel) (Entry.file (toContent d)))
                  (resolveGitPath rel) (Entry.file (toContent d))
        , repo := { present := c.repo.present
                  , head := c.repo.head
                  , index := fsSet c.repo.index rel (Entry.file (toContent d)) }
        , remote := c.repo.head
        , trace := c.trace ++
            [GEvent.git GitCmd.add, GEvent.git GitCmd.diffCached, GEvent.git GitCmd.push]
        , gitCount := c.gitCount + 3 } := by
  simp [writeJson, ensureInitialized, mergeFiles, writeFileM, stageFiles, runGit,
    recordGit, stageEffect, hasStagedChanges, pushWithRetry, pushLoop, pushEffect,
    mkSnap, hinit, hmode, hw, hl, hg, hadd, hpushok, hsame, hpend]


/-! ## Claim C5 -/

/-- C5: writing content identical to the previously committed content (no
staged diff) does not produce a commit — the trace gains only the `git add`
and `git diff --cached` invocations and HEAD is unchanged — and the second
write attempts a push precisely when one is already pending: with
`pending = false` no push invocation appears, with `pending = true` a
catch-up push is attempted even though nothing changed. -/
theorem claim_C5 :
    (∀ (w : World) (rel : String) (d : JSData) (c : Config),
      c.st.initializedF = true → c.st.mode ≠ Mode.LOCAL →
      w.writeOk (resolveWorkingPath rel) = true →
      w.writeOk (resolveLocalPath rel) = true →
      w.writeOk (resolveGitPath rel) = true →
      (∀ n, w.gitOk n GitCmd.add = true) →
      fsSet c.repo.index rel (Entry.file (toContent d)) = c.repo.head.getD [] →
      c.st.pending = false →
      writeJson w rel d c =
        Res.ok
          { mode := .ACTIVE, pending := false, error := none, branch := c.st.branch }
          { c with
            st := { c.st with
                    files := dedupList (c.st.files ++ [rel]),
                    mode := .ACTIVE,
                    pending := false,
                    error := none }
          , fs := fsSet (fsSet (fsSet c.fs (resolveWorkingPath rel) (Entry.file (toContent d)))
                    (resolveLocalPath rel) (Entry.file (toContent d)))
                    (resolveGitPath rel) (Entry.file (toContent d))
          , repo := { present := c.repo.present
                    , head := c.repo.head
                    , index := fsSet c.repo.index rel (Entry.file (toContent d)) }
          , trace := c.trace ++ [GEvent.git GitCmd.add, GEvent.git GitCmd.diffCached]
          , gitCount := c.gitCount + 2 }) ∧
    (∀ (w : World) (rel : String) (d : JSData) (c : Config),
      c.st.initializedF = true → c.st.mode ≠ Mode.LOCAL →
      w.writeOk (resolveWorkingPath rel) = true →
      w.writeOk (resolveLocalPath rel) = true →
      w.writeOk (resolveGitPath rel) = true →
      (∀ n, w.gitOk n GitCmd.add = true) →
      (∀ n, w.gitOk n GitCmd.push = true) →
      fsSet c.repo.index rel (Entry.file (toContent d)) = c.repo.head.getD [] →
      c.st.pending = true →
      writeJson w rel d c =
        Res.ok
          { mode := .ACTIVE, pending := false, error := none, branch := c.st.branch }
          { c with
            st := { c.st with
                    files := dedupList (c.st.files ++ [rel]),
                    mode := .ACTIVE,
                    pending := false,
                    error := none }
          , fs := fsSet (fsSet (fsSet c.fs (resolveWorkingPath rel) (Entry.file (toContent d)))
                    (resolveLocalPath rel) (Entry.file (toContent d)))
                    (resolveGitPath rel) (Entry.file (toContent d))
          , repo := { present := c.repo.present
                    , head := c.repo.head
                    , index := fsSet c.repo.index rel (Entry.file (toContent d)) }
          , remote := c.repo.head
          , trace := c.trace ++
              [GEvent.git GitCmd.add, GEvent.git GitCmd.diffCached, GEvent.git GitCmd.push]
          , gitCount := c.gitCount + 3 }) := by
  constructor
  · intro w rel d c hinit hmode hw hl hg hadd hsame hpend
    exact writeJson_noDiff_noPending w rel d c hinit hmode hw hl hg hadd hsame hpend
  · intro w rel d c hinit hmode hw hl hg hadd hpushok hsame hpend
    exact writeJson_noDiff_pending w rel d c hinit hmode hw hl hg hadd hpushok hsame hpend

/-- C5 witness: a store whose HEAD already contains exactly the staged
content of config.json, without and with a pending push. -/
theorem claim_C5_witness :
    writeJson wOk "config.json" (JSData.val vA) cSynced =
      Res.ok
        { mode := .ACTIVE, pending := false, error := none, branch := "main" }
        { cSynced with
          st := { cSynced.st with
                  files := dedupList (cSynced.st.files ++ ["config.json"]),
                  mode := .ACTIVE,
                  pending := false,
                  error := none }
        , fs := fsSet (fsSet (fsSet cSynced.fs (resolveWorkingPath "config.json")
                  (Entry.file (Content.json vA)))
                  (resolveLocalPath "config.json") (Entry.file (Content.json vA)))
                  (resolveGitPath "config.json") (Entry.file (Content.json vA))
        , repo := { present := true
                  , head := cSynced.repo.head
                  , index := fsSet cSynced.repo.index "config.json" (Entry.file (Content.json vA)) }
        , trace := [GEvent.git GitCmd.add, GEvent.git GitCmd.diffCached]
        , gitCount := 2 } ∧
    writeJson wOk "config.json" (JSData.val vA) cSyncedPending =
      Res.ok
        { mode := .ACTIVE, pending := false, error := none, branch := "main" }
        { cSyncedPending with
          st := { cSyncedPending.st with
                  files := dedupList (cSyncedPending.st.files ++ ["config.json"]),
                  mode := .ACTIVE,
                  pending := false,
                  error := none }
        , fs := fsSet (fsSet (fsSet cSyncedPending.fs (resolveWorkingPath "config.json")
                  (Entry.file (Content.json vA)))
                  (resolveLocalPath "config.json") (Entry.file (Content.json vA)))
                  (resolveGitPath "config.json") (Entry.file (Content.json vA))
        , repo := { present := true
                  , head := cSyncedPending.repo.head
                  , index := fsSet cSyncedPending.repo.index "config.json"
                      (Entry.file (Content.json vA)) }
        , remote := cSyncedPending.repo.head
        , trace := [GEvent.git GitCmd.add, GEvent.git GitCmd.diffCached, GEvent.git GitCmd.push]
        , gitCount := 3 } := by
  constructor
  · have h := claim_C5.1 wOk "config.json" (JSData.val vA) cSynced rfl (by decide)
      rfl rfl rfl (fun n => rfl) (by decide) rfl
    simpa using h
  · have h := claim_C5.2 wOk "config.json" (JSData.val vA) cSyncedPending rfl (by decide)
      rfl rfl rfl (fun n => rfl) (fun n => rfl) (by decide) rfl
    simpa using h

theorem pushLoop_total (w : World) (k : Nat) :
    ∀ c : Config, ∃ b cf, pushLoop w k c = Res.ok b cf := by
  induction k with
  | zero => intro c; exact ⟨false, c, rfl⟩
  | succ k ih =>
      intro c
      by_cases hp : w.gitOk c.gitCount GitCmd.push
      · exact ⟨true, _, pushLoop_succ_ok w c k hp⟩
      · obtain ⟨b, cf, hb⟩ := ih
          { c with
            st := { c.st with error := some (gitErrMsg GitCmd.push) }
          , trace := c.trace ++ [GEvent.git GitCmd.push, GEvent.sleep 3000]
          , gitCount := c.gitCount + 1 }
        exact ⟨b, cf, by
          rw [pushLoop_succ_fail w c k (Bool.of_not_eq_true hp)]
          exact hb⟩

theorem pushLoop_inv (w : World) (k : Nat) :
    ∀ (c cf : Config) (b : Bool), pushLoop w k c = Res.ok b cf →
      cf.fs = c.fs ∧ cf.repo = c.repo ∧ cf.st.mode = c.st.mode ∧
      cf.st.pending = c.st.pending ∧ cf.st.initializedF = c.st.initializedF ∧
      cf.st.branch = c.st.branch := by
  induction k with
  | zero =>
      intro c cf b h
      simp only [pushLoop, pure_apply, Res.ok.injEq] at h
      obtain ⟨-, hcf⟩ := h
      subst hcf
      exact ⟨rfl, rfl, rfl, rfl, rfl, rfl⟩
  | succ k ih =>
      intro c cf b h
      by_cases hp : w.gitOk c.gitCount GitCmd.push
      · rw [pushLoop_succ_ok w c k hp] at h
        simp only [Res.ok.injEq] at h
        obtain ⟨-, hcf⟩ := h
        subst hcf
        exact ⟨rfl, rfl, rfl, rfl, rfl, rfl⟩
      · rw [pushLoop_succ_fail w c k (Bool.of_not_eq_true hp)] at h
        obtain ⟨h1, h2, h3, h4, h5, h6⟩ := ih _ cf b h
        simpa using ⟨h1, h2, h3, h4, h5, h6⟩

theorem pushWithRetry_total (w : World) (sp : Bool) (c : Config) :
    ∃ b cf, pushWithRetry w sp c = Res.ok b cf := by
  cases sp with
  | false => exact ⟨true, c, rfl⟩
  | true => exact pushLoop_total w 3 c

theorem pushWithRetry_inv (w : World) (sp : Bool) (c cf : Config) (b : Bool)
    (h : pushWithRetry w sp c = Res.ok b cf) :
    cf.fs = c.fs ∧ cf.repo = c.repo ∧ cf.st.mode = c.st.mode ∧
    cf.st.pending = c.st.pending ∧ cf.st.initializedF = c.st.initializedF ∧
    cf.st.branch = c.st.branch := by
  cases sp with
  | false =>
      simp only [pushWithRetry, Bool.false_eq_true, if_false, pure_apply, Res.ok.injEq] at h
      obtain ⟨-, hcf⟩ := h
      subst hcf
      exact ⟨rfl, rfl, rfl, rfl, rfl, rfl⟩
  | true => exact pushLoop_inv w 3 c cf b h


/-! ## Claim C6 -/

/-- C6: if a write of structured content `v` to a key returns normally and
the returned snapshot has mode ACTIVE (the write succeeded), then a
subsequent read of that key returns content structurally equal to `v` —
for any push outcome, under healthy local writes and staging. -/
theorem claim_C6 (w : World) (rel : String) (v : JValue) (c : Config)
    (hinit : c.st.initializedF = true)
    (hmode : c.st.mode ≠ Mode.LOCAL)
    (hw : w.writeOk (resolveWorkingPath rel) = true)
    (hl : w.writeOk (resolveLocalPath rel) = true)
    (hg : w.writeOk (resolveGitPath rel) = true)
    (hadd : ∀ n, w.gitOk n GitCmd.add = true)
    (hamend : ∀ n, w.gitOk n GitCmd.commitAmend = true)
    (hfirst : ∀ n, w.gitOk n GitCmd.commitNew = true) :
    ∀ s c', writeJson w rel (JSData.val v) c = Res.ok s c' →
      s.mode = Mode.ACTIVE →
      ∃ c'', readJson w rel c' = Res.ok v c'' := by
  intro s c' h hact
  by_cases hch : fsSet c.repo.index rel (Entry.file (toContent (JSData.val v))) =
      c.repo.head.getD []
  · simp [writeJson, ensureInitialized, mergeFiles, writeFileM, stageFiles, runGit,
      recordGit, stageEffect, hasStagedChanges, mkSnap,
      hinit, hmode, hw, hl, hg, hadd, hch] at h
    split at h
    · rename_i x a₂ c₂ heq
      obtain ⟨hfs, hrepo, hmode2, hpend2, hinit2, hbr⟩ := pushWithRetry_inv w _ _ _ _ heq
      by_cases ha : a₂ = true
      · simp [ha, mkSnap, Res.ok.injEq] at h
        obtain ⟨hs, hc⟩ := h
        subst hc
        exact readJson_remoteWins w rel _ v (by simp [hinit2]) (by simp)
          (by simp [hfs, toContent]) hw hl hg
      · simp [ha, mkSnap, Res.ok.injEq] at h
        obtain ⟨hs, hc⟩ := h
        rw [← hs] at hact
        simp at hact
    · rename_i x e₂ c₂ heq
      simp at h
  · cases hhd : c.repo.head with
    | some t =>
        have hch' : fsSet c.repo.index rel (Entry.file (toContent (JSData.val v))) ≠ t := by
          simpa [hhd] using hch
        simp [writeJson, ensureInitialized, mergeFiles, writeFileM, stageFiles, runGit,
          recordGit, stageEffect, hasStagedChanges, commitM, hasHead, commitEffect,
          mkSnap, hinit, hmode, hw, hl, hg, hadd, hamend, hch', hhd] at h
        split at h
        · rename_i x a₂ c₂ heq
          obtain ⟨hfs, hrepo, hmode2, hpend2, hinit2, hbr⟩ := pushWithRetry_inv w _ _ _ _ heq
          by_cases ha : a₂ = true
          · simp [ha, mkSnap, Res.ok.injEq] at h
            obtain ⟨hs, hc⟩ := h
            subst hc
            exact readJson_remoteWins w rel _ v (by simp [hinit2]) (by simp)
              (by simp [hfs, toContent]) hw hl hg
          · simp [ha, mkSnap, Res.ok.injEq] at h
            obtain ⟨hs, hc⟩ := h
            rw [← hs] at hact
            simp at hact
        · rename_i x e₂ c₂ heq
          simp at h
    | none =>
        have hne : fsSet c.repo.index rel (Entry.file (toContent (JSData.val v))) ≠ [] := by
          simp [fsSet]
        simp [writeJson, ensureInitialized, mergeFiles, writeFileM, stageFiles, runGit,
          recordGit, stageEffect, hasStagedChanges, commitM, hasHead, commitEffect,
          mkSnap, hinit, hmode, hw, hl, hg, hadd, hfirst, hne, hhd] at h
        split at h
        · rename_i x a₂ c₂ heq
          obtain ⟨hfs, hrepo, hmode2, hpend2, hinit2, hbr⟩ := pushWithRetry_inv w _ _ _ _ heq
          by_cases ha : a₂ = true
          · simp [ha, mkSnap, Res.ok.injEq] at h
            obtain ⟨hs, hc⟩ := h
            subst hc
            exact readJson_remoteWins w rel _ v (by simp [hinit2]) (by simp)
              (by simp [hfs, toContent]) hw hl hg
          · simp [ha, mkSnap, Res.ok.injEq] at h
            obtain ⟨hs, hc⟩ := h
            rw [← hs] at hact
            simp at hact
        · rename_i x e₂ c₂ heq
          simp at h


/-- C6 witness: a successful write against the synced store followed by the
read returning the same document. -/
theorem claim_C6_witness :
    writeJson wOk "config.json" (JSData.val vA) cSynced =
      Res.ok
        { mode := .ACTIVE, pending := false, error := none, branch := "main" }
        { cSynced with
          st := { cSynced.st with
                  files := dedupList (cSynced.st.files ++ ["config.json"]),
                  mode := .ACTIVE,
                  pending := false,
                  error := none }
        , fs := fsSet (fsSet (fsSet cSynced.fs (resolveWorkingPath "config.json")
                  (Entry.file (Content.json vA)))
                  (resolveLocalPath "config.json") (Entry.file (Content.json vA)))
                  (resolveGitPath "config.json") (Entry.file (Content.json vA))
        , repo := { present := true
                  , head := cSynced.repo.head
                  , index := fsSet cSynced.repo.index "config.json"
                      (Entry.file (Content.json vA)) }
        , trace := [GEvent.git GitCmd.add, GEvent.git GitCmd.diffCached]
        , gitCount := 2 } ∧
    ∃ c'', readJson wOk "config.json"
        { cSynced with
          st := { cSynced.st with
                  files := dedupList (cSynced.st.files ++ ["config.json"]),
                  mode := .ACTIVE,
                  pending := false,
                  error := none }
        , fs := fsSet (fsSet (fsSet cSynced.fs (resolveWorkingPath "config.json")
                  (Entry.file (Content.json vA)))
                  (resolveLocalPath "config.json") (Entry.file (Content.json vA)))
                  (resolveGitPath "config.json") (Entry.file (Content.json vA))
        , repo := { present := true
                  , head := cSynced.repo.head
                  , index := fsSet cSynced.repo.index "config.json"
                      (Entry.file (Content.json vA)) }
        , trace := [GEvent.git GitCmd.add, GEvent.git GitCmd.diffCached]
        , gitCount := 2 } = Res.ok vA c'' := by
  constructor
  · rfl
  · exact claim_C6 wOk "config.json" vA cSynced rfl (by decide) rfl rfl rfl
      (fun n => rfl) (fun n => rfl) (fun n => rfl) _ _ (by rfl) rfl

/-- Identical-content write with a pending push and the remote still down:
no commit, the catch-up push is attempted and exhausts its retries. -/
theorem writeJson_noDiff_pendingFail (w : World) (rel : String) (d : JSData)
    (c : Config)
    (hinit : c.st.initializedF = true)
    (hmode : c.st.mode ≠ Mode.LOCAL)
    (hw : w.writeOk (resolveWorkingPath rel) = true)
    (hl : w.writeOk (resolveLocalPath rel) = true)
    (hg : w.writeOk (resolveGitPath rel) = true)
    (hadd : ∀ n, w.gitOk n GitCmd.add = true)
    (hpush : ∀ n, w.gitOk n GitCmd.push = false)
    (hsame : fsSet c.repo.index rel (Entry.file (toContent d)) = c.repo.head.getD [])
    (hpend : c.st.pending = true) :
    ∃ s₂ c₂, writeJson w rel d c = Res.ok s₂ c₂ ∧ s₂ = mkSnap c₂.st ∧
      c₂.st.mode = Mode.DEGRADED ∧ c₂.st.pending = true ∧
      c₂.st.error = some (gitErrMsg GitCmd.push) ∧
      fsGet c₂.fs (resolveWorkingPath rel) = some (Entry.file (toContent d)) ∧
      fsGet c₂.fs (resolveLocalPath rel) = some (Entry.file (toContent d)) := by
  have heq : writeJson w rel d c =
      Res.ok
        { mode := .DEGRADED, pending := true, error := some (gitErrMsg GitCmd.push)
        , branch := c.st.branch }
        { c with
          st := { c.st with
                  files := dedupList (c.st.files ++ [rel]),
                  mode := .DEGRADED,
                  pending := true,
                  error := some (gitErrMsg GitCmd.push) }
        , fs := fsSet (fsSet (fsSet c.fs (resolveWorkingPath rel) (Entry.file (toContent d)))
                  (resolveLocalPath rel) (Entry.file (toContent d)))
                  (resolveGitPath rel) (Entry.file (toContent d))
        , repo := { present := c.repo.present
                  , head := c.repo.head
                  , index := fsSet c.repo.index rel (Entry.file (toContent d)) }
        , trace := c.trace ++
            [GEvent.git GitCmd.add, GEvent.git GitCmd.diffCached,
             GEvent.git GitCmd.push, GEvent.sleep 3000,
             GEvent.git GitCmd.push, GEvent.sleep 3000,
             GEvent.git GitCmd.push, GEvent.sleep 3000]
        , gitCount := c.gitCount + 5 } := by
    simp [writeJson, ensureInitialized, mergeFiles, writeFileM, stageFiles, runGit,
      recordGit, stageEffect, hasStagedChanges, pushWithRetry, pushLoop, mkSnap,
      hinit, hmode, hw, hl, hg, hadd, hpush, hsame, hpend]
  exact ⟨_, _, heq, rfl, rfl, rfl, rfl,
    (fsGet_set3 c.fs (resolveWorkingPath rel) (resolveLocalPath rel)
      (resolveGitPath rel) (Entry.file (toContent d))).1,
    (fsGet_set3 c.fs (resolveWorkingPath rel) (resolveLocalPath rel)
      (resolveGitPath rel) (Entry.file (toContent d))).2.1⟩

/-! ## Claim C8 -/

/-- C8: when the pull performed by materialization before a write fails,
the mode becomes DEGRADED, pending becomes true, and the pull failure
message is recorded — and the subsequent write still proceeds locally: it
returns normally (no throw) and the working and local tiers hold the new
content (with the remote still down, the final state stays DEGRADED and
pending). -/
theorem claim_C8 (w : World) (rel : String) (d : JSData) (c : Config) (ct : Content)
    (hinit : c.st.initializedF = true)
    (hmode : c.st.mode ≠ Mode.LOCAL)
    (hgit : fsGet c.fs (resolveGitPath rel) = some (Entry.file ct))
    (hw : w.writeOk (resolveWorkingPath rel) = true)
    (hl : w.writeOk (resolveLocalPath rel) = true)
    (hg : w.writeOk (resolveGitPath rel) = true)
    (hpull : ∀ n, w.gitOk n GitCmd.pull = false)
    (hadd : ∀ n, w.gitOk n GitCmd.add = true)
    (hamend : ∀ n, w.gitOk n GitCmd.commitAmend = true)
    (hfirst : ∀ n, w.gitOk n GitCmd.commitNew = true)
    (hpush : ∀ n, w.gitOk n GitCmd.push = false) :
    ∃ s₁ c₁, ensureWorkingCopies w (some [rel]) c = Res.ok s₁ c₁ ∧ s₁ = mkSnap c₁.st ∧
      c₁.st.mode = Mode.DEGRADED ∧ c₁.st.pending = true ∧
      c₁.st.error = some (gitErrMsg GitCmd.pull) ∧
      ∃ s₂ c₂, writeJson w rel d c₁ = Res.ok s₂ c₂ ∧ s₂ = mkSnap c₂.st ∧
        c₂.st.mode = Mode.DEGRADED ∧ c₂.st.pending = true ∧
        c₂.st.error = some (gitErrMsg GitCmd.push) ∧
        fsGet c₂.fs (resolveWorkingPath rel) = some (Entry.file (toContent d)) ∧
        fsGet c₂.fs (resolveLocalPath rel) = some (Entry.file (toContent d)) := by
  refine ⟨_, _, ewc_gitFile_pullFail w rel c ct hinit hmode hgit hw hl hg (hpull _),
    rfl, rfl, rfl, rfl, ?_⟩
  by_cases hch : fsSet c.repo.index rel (Entry.file (toContent d)) = c.repo.head.getD []
  · exact writeJson_noDiff_pendingFail w rel d _
      (by simpa using hinit) (by simp) hw hl hg hadd hpush (by simpa using hch) rfl
  · exact writeJson_pushExhaust_any w rel d _
      (by simpa using hinit) (by simp) hw hl hg hadd hamend hfirst hpush (by simpa using hch)

/-- C8 witness: remote down (pull and push both fail) against the store
whose clone holds config.json; the write of a new document still lands
locally. -/
theorem claim_C8_witness :
    ∃ s₁ c₁, ensureWorkingCopies wRemoteDown (some ["config.json"]) cTier =
        Res.ok s₁ c₁ ∧ s₁ = mkSnap c₁.st ∧
      c₁.st.mode = Mode.DEGRADED ∧ c₁.st.pending = true ∧
      c₁.st.error = some (gitErrMsg GitCmd.pull) ∧
      ∃ s₂ c₂, writeJson wRemoteDown "config.json" (JSData.val vB) c₁ = Res.ok s₂ c₂ ∧
        s₂ = mkSnap c₂.st ∧
        c₂.st.mode = Mode.DEGRADED ∧ c₂.st.pending = true ∧
        c₂.st.error = some (gitErrMsg GitCmd.push) ∧
        fsGet c₂.fs (resolveWorkingPath "config.json") =
          some (Entry.file (toContent (JSData.val vB))) ∧
        fsGet c₂.fs (resolveLocalPath "config.json") =
          some (Entry.file (toContent (JSData.val vB))) :=
  claim_C8 wRemoteDown "config.json" (JSData.val vB) cTier (Content.json vA)
    rfl (by decide) rfl rfl rfl rfl (fun n => rfl) (fun n => rfl) (fun n => rfl)
    (fun n => rfl) (fun n => rfl)

/-! ## Claim C10 -/

/-- C10: if after the initialization and materialization prefix of
`syncDirectory` the working-copy path of the directory key does not exist,
then `syncDirectory` returns exactly the post-materialization state
snapshot and configuration: the local mirror and remote clone are not
written, nothing is staged or committed, no push is attempted, and the
mode/pending/error fields are left as materialization left them. -/
theorem claim_C10 (w : World) (d : String) (c c₁ c₂ : Config) (s₁ s₂ : StateSnap)
    (h1 : ensureInitialized w [d] c = Res.ok s₁ c₁)
    (h2 : ensureWorkingCopies w (some [d]) c₁ = Res.ok s₂ c₂)
    (hmiss : fsGet c₂.fs (resolveWorkingPath d) = none) :
    syncDirectory w d c = Res.ok (mkSnap c₂.st) c₂ := by
  simp [syncDirectory, h1, h2, hmiss]

/-- C10 witness: the ready store over an empty disk; materialization finds
no source for "configs" and the sync returns the post-materialization
state unchanged. -/
theorem claim_C10_witness :
    syncDirectory wOk "configs" cReady =
      Res.ok
        (mkSnap (recordGit GitCmd.pull
          (mergeFiles ["configs"] (mergeFiles ["configs"] cReady))).st)
        (recordGit GitCmd.pull
          (mergeFiles ["configs"] (mergeFiles ["configs"] cReady))) :=
  claim_C10 wOk "configs" cReady
    (mergeFiles ["configs"] cReady)
    (recordGit GitCmd.pull (mergeFiles ["configs"] (mergeFiles ["configs"] cReady)))
    (mkSnap cReady.st)
    (mkSnap (recordGit GitCmd.pull
      (mergeFiles ["configs"] (mergeFiles ["configs"] cReady))).st)
    rfl rfl rfl


/-! ## Claim C9 (corrected) -/

/-- C9 counterexample: the claim as stated is false at concrete inputs.
First, `syncAllInStore` does NOT propagate a local filesystem write failure
to its caller: with writes to the working copy of config.json failing, it
returns normally (`Res.ok`) with the failure converted into state
(mode DEGRADED, error recorded).  Second, `writeJson` DOES throw on a
git-related failure: a failing `git add` propagates out of the write as an
exception, contradicting "every git/remote-related failure is converted
into state and never thrown". -/
theorem claim_C9_counterexample :
    (match syncAllInStore wWriteDown argsC9 cReady with
      | Res.ok s _ =>
          s.error = some (writeErrMsg (resolveWorkingPath "config.json")) ∧
          s.mode = Mode.DEGRADED
      | Res.err _ _ => False) ∧
    (match writeJson wAddFail "config.json" (JSData.val vA) cReady with
      | Res.err e _ => e = gitErrMsg GitCmd.add
      | Res.ok _ _ => False) := by
  constructor
  · exact ⟨rfl, rfl⟩
  · rfl


/-- C9 amended: for read and write, local filesystem and content-format
failures propagate to the caller as exceptions, and pull/push (remote)
failures are converted into state and never thrown; however a git
stage failure during write also propagates; and sync-all converts every
failure of its write phase — including local I/O failures — into state
(DEGRADED only from ACTIVE, message recorded) instead of propagating.
Conjuncts: (1) read of a missing key throws ENOENT; (2) read of
non-JSON content throws a parse error; (3) write with a failing local
write throws; (4) write whose pushes all fail returns normally; (5) write
with a failing `git add` throws; (6) sync-all with a failing local write
returns normally with the failure in state. -/
theorem claim_C9_amended :
    (∀ (w : World) (k : String) (c : Config),
      c.st.initializedF = true → c.st.mode = Mode.LOCAL →
      fsGet c.fs (resolveLocalPath k) = none →
      fsGet c.fs (resolveWorkingPath k ++ ".example") = none →
      fsGet c.fs (resolveWorkingPath k) = none →
      readJson w k c =
        Res.err (enoentMsg (resolveWorkingPath k)) (mergeFiles [k] c)) ∧
    (∀ (w : World) (k : String) (s : String) (c : Config),
      c.st.initializedF = true → c.st.mode = Mode.LOCAL →
      fsGet c.fs (resolveLocalPath k) = some (Entry.file (Content.text s)) →
      w.writeOk (resolveWorkingPath k) = true →
      w.writeOk (resolveLocalPath k) = true →
      readJson w k c =
        Res.err jsonErrMsg
          { mergeFiles [k] c with
            fs := fsSet (fsSet c.fs (resolveWorkingPath k) (Entry.file (Content.text s)))
                    (resolveLocalPath k) (Entry.file (Content.text s)) }) ∧
    (∀ (w : World) (k : String) (d : JSData) (c : Config),
      c.st.initializedF = true →
      w.writeOk (resolveWorkingPath k) = false →
      writeJson w k d c =
        Res.err (writeErrMsg (resolveWorkingPath k)) (mergeFiles [k] c)) ∧
    (∀ (w : World) (k : String) (d : JSData) (c : Config),
      c.st.initializedF = true → c.st.mode ≠ Mode.LOCAL →
      w.writeOk (resolveWorkingPath k) = true →
      w.writeOk (resolveLocalPath k) = true →
      w.writeOk (resolveGitPath k) = true →
      (∀ n, w.gitOk n GitCmd.add = true) →
      (∀ n, w.gitOk n GitCmd.commitAmend = true) →
      (∀ n, w.gitOk n GitCmd.commitNew = true) →
      (∀ n, w.gitOk n GitCmd.push = false) →
      fsSet c.repo.index k (Entry.file (toContent d)) ≠ c.repo.head.getD [] →
      ∃ s c', writeJson w k d c = Res.ok s c') ∧
    (∀ (w : World) (k : String) (d : JSData) (c : Config),
      c.st.initializedF = true → c.st.mode ≠ Mode.LOCAL →
      w.writeOk (resolveWorkingPath k) = true →
      w.writeOk (resolveLocalPath k) = true →
      w.writeOk (resolveGitPath k) = true →
      (∀ n, w.gitOk n GitCmd.add = false) →
      writeJson w k d c =
        Res.err (gitErrMsg GitCmd.add)
          { mergeFiles [k] c with
            fs := fsSet (fsSet (fsSet c.fs (resolveWorkingPath k) (Entry.file (toContent d)))
                    (resolveLocalPath k) (Entry.file (toContent d)))
                    (resolveGitPath k) (Entry.file (toContent d))
          , trace := c.trace ++ [GEvent.git GitCmd.add]
          , gitCount := c.gitCount + 1 }) ∧
    (∀ (w : World) (cp pp : String) (c : Config),
      c.st.initializedF = true → c.st.mode = Mode.ACTIVE →
      (∀ n, w.gitOk n GitCmd.pull = true) →
      w.writeOk (resolveWorkingPath cp) = false →
      fsGet c.fs (resolveGitPath cp) = none →
      fsGet c.fs (resolveLocalPath cp) = none →
      fsGet c.fs (resolveWorkingPath cp ++ ".example") = none →
      fsGet c.fs (resolveGitPath pp) = none →
      fsGet c.fs (resolveLocalPath pp) = none →
      fsGet c.fs (resolveWorkingPath pp ++ ".example") = none →
      ∃ c', syncAllInStore w
          { configPath := cp, configData := none
          , providerPoolsPath := pp, providerPoolsData := none
          , includeConfigsDir := false, includePwd := false } c =
        Res.ok
          { mode := Mode.DEGRADED, pending := c.st.pending
          , error := some (writeErrMsg (resolveWorkingPath cp))
          , branch := c.st.branch } c') := by
  refine ⟨?_, ?_, ?_, ?_, ?_, ?_⟩
  · intro w k c hinit hloc hl he hw
    simp [readJson, ensureWorkingCopies, ensureInitialized, mergeFiles, matLoop,
      matBody, pickSource, readFileM, hinit, hloc, hl, he, hw]
  · intro w k s c hinit hloc hl hww hwl
    simp [readJson, ensureWorkingCopies, ensureInitialized, mergeFiles, matLoop,
      matBody, pickSource, statM, writeFileM, readFileM, jsonParse,
      hinit, hloc, hl, hww, hwl, fsGet_fsSet]
  · intro w k d c hinit hwf
    simp [writeJson, ensureInitialized, mergeFiles, writeFileM, hinit, hwf]
  · intro w k d c hinit hmode hw hl hg hadd hamend hfirst hpush hnew
    obtain ⟨s, c', heq, -⟩ := writeJson_pushExhaust_any w k d c hinit hmode hw hl hg
      hadd hamend hfirst hpush hnew
    exact ⟨s, c', heq⟩
  · intro w k d c hinit hmode hw hl hg haddf
    simp [writeJson, ensureInitialized, mergeFiles, writeFileM, stageFiles, runGit,
      recordGit, hinit, hmode, hw, hl, hg, haddf]
  · intro w cp pp c hinit hact hpull hwf hg1 hl1 he1 hg2 hl2 he2
    refine ⟨{ mergeFiles [cp] (recordGit GitCmd.pull
        (mergeFiles [cp, pp] (mergeFiles [cp, pp] c))) with
        st := { (mergeFiles [cp] (recordGit GitCmd.pull
            (mergeFiles [cp, pp] (mergeFiles [cp, pp] c)))).st with
            mode := Mode.DEGRADED
          , error := some (writeErrMsg (resolveWorkingPath cp)) } }, ?_⟩
    simp [syncAllInStore, ensureWorkingCopies, ensureInitialized, mergeFiles, matLoop,
      matBody, pickSource, writeJson, writeFileM, tryM, pullLatest, runGit, recordGit,
      mkSnap, hinit, hact, hpull, hwf, hg1, hl1, he1, hg2, hl2, he2]

/-- C9 witness: each amended conjunct at a concrete store. -/
theorem claim_C9_amended_witness :
    readJson wOk "config.json" cLocalMode =
      Res.err (enoentMsg (resolveWorkingPath "config.json"))
        (mergeFiles ["config.json"] cLocalMode) ∧
    readJson wOk "pwd" cLocalText =
      Res.err jsonErrMsg
        { mergeFiles ["pwd"] cLocalText with
          fs := fsSet (fsSet cLocalText.fs (resolveWorkingPath "pwd")
                  (Entry.file (Content.text "hello")))
                  (resolveLocalPath "pwd") (Entry.file (Content.text "hello")) } ∧
    writeJson wWriteDown "config.json" (JSData.val vA) cReady =
      Res.err (writeErrMsg (resolveWorkingPath "config.json"))
        (mergeFiles ["config.json"] cReady) ∧
    (∃ s c', writeJson wPushDown "config.json" (JSData.val vA) cReady = Res.ok s c') ∧
    writeJson wAddFail "config.json" (JSData.val vA) cReady =
      Res.err (gitErrMsg GitCmd.add)
        { mergeFiles ["config.json"] cReady with
          fs := fsSet (fsSet (fsSet cReady.fs (resolveWorkingPath "config.json")
                  (Entry.file (toContent (JSData.val vA))))
                  (resolveLocalPath "config.json") (Entry.file (toContent (JSData.val vA))))
                  (resolveGitPath "config.json") (Entry.file (toContent (JSData.val vA)))
        , trace := [GEvent.git GitCmd.add]
        , gitCount := 1 } ∧
    (∃ c', syncAllInStore wWriteDown
        { configPath := "config.json", configData := none
        , providerPoolsPath := "provider_pools.json", providerPoolsData := none
        , includeConfigsDir := false, includePwd := false } cReady =
      Res.ok
        { mode := Mode.DEGRADED, pending := false
        , error := some (writeErrMsg (resolveWorkingPath "config.json"))
        , branch := "main" } c') := by
  refine ⟨?_, ?_, ?_, ?_, ?_, ?_⟩
  · exact claim_C9_amended.1 wOk "config.json" cLocalMode rfl rfl rfl rfl rfl
  · exact claim_C9_amended.2.1 wOk "pwd" "hello" cLocalText rfl rfl rfl rfl rfl
  · exact claim_C9_amended.2.2.1 wWriteDown "config.json" (JSData.val vA) cReady rfl rfl
  · exact claim_C9_amended.2.2.2.1 wPushDown "config.json" (JSData.val vA) cReady
      rfl (by decide) rfl rfl rfl (fun n => rfl) (fun n => rfl) (fun n => rfl)
      (fun n => rfl) (by decide)
  · have h := claim_C9_amended.2.2.2.2.1 wAddFail "config.json" (JSData.val vA) cReady
      rfl (by decide) rfl rfl rfl (fun n => rfl)
    simpa using h
  · exact claim_C9_amended.2.2.2.2.2 wWriteDown "config.json" "provider_pools.json"
      cReady rfl rfl (fun n => rfl) rfl rfl rfl rfl rfl rfl rfl

/-! ## Invariant framework -/

theorem HoareC.bindH {P Q R : Config → Prop} {x : M α} {f : α → M β}
    (hx : HoareC P x Q) (hf : ∀ a, HoareC Q (f a) R) (hQR : ∀ c, Q c → R c) :
    HoareC P (x >>= f) R := by
  intro c hc
  simp only [bind_apply]
  cases hres : x c with
  | ok a c' =>
      have h2 := hx c hc
      rw [hres] at h2
      exact hf a c' h2
  | err e c' =>
      have h2 := hx c hc
      rw [hres] at h2
      exact hQR c' h2

theorem HoareC.bind_getM {P Q : Config → Prop} {f : Config → M β}
    (hf : ∀ a, P a → HoareC P (f a) Q) :
    HoareC P (getM >>= f) Q := by
  intro c hc
  simp only [bind_apply, getM_apply]
  exact hf c hc c hc

theorem HoareC.tryMH {P Q : Config → Prop} {x : M α} {h : String → M α}
    (hx : HoareC P x Q) (hh : ∀ e, HoareC Q (h e) Q) :
    HoareC P (tryM x h) Q := by
  intro c hc
  simp only [tryM_apply]
  cases hres : x c with
  | ok a c' =>
      have h2 := hx c hc
      rw [hres] at h2
      exact h2
  | err e c' =>
      have h2 := hx c hc
      rw [hres] at h2
      exact hh e c' h2

theorem HoareC.pureH {P : Config → Prop} (a : α) : HoareC P (pure a) P :=
  fun _ hc => hc

theorem HoareC.throwM {P : Config → Prop} (e : String) :
    HoareC P (throwM e : M α) P := fun _ hc => hc

theorem HoareC.getSnapM {P : Config → Prop} : HoareC P getSnapM P :=
  fun _ hc => hc

theorem HoareC.modifyM {P Q : Config → Prop} {f : Config → Config}
    (hf : ∀ c, P c → Q (f c)) : HoareC P (modifyM f) Q :=
  fun c hc => hf c hc

theorem KeepsStTrace.keepsSt {x : M α} (h : KeepsStTrace x) : KeepsSt x :=
  fun c => (h c).1

theorem KeepsSt.mpi {x : M α} (h : KeepsSt x) : KeepsMPI x := by
  intro c
  rw [h c]
  exact ⟨rfl, rfl, rfl⟩

theorem KeepsStTrace.bindK {x : M α} {f : α → M β}
    (hx : KeepsStTrace x) (hf : ∀ a, KeepsStTrace (f a)) :
    KeepsStTrace (x >>= f) := by
  intro c
  simp only [bind_apply]
  cases hres : x c with
  | ok a c' =>
      have h1 := hx c
      rw [hres] at h1
      have h2 := hf a c'
      exact ⟨h2.1.trans h1.1, h2.2.trans h1.2⟩
  | err e c' =>
      have h1 := hx c
      rw [hres] at h1
      exact h1

theorem KeepsStTrace.pureK (a : α) : KeepsStTrace (pure a : M α) :=
  fun _ => ⟨rfl, rfl⟩

theorem KeepsSt.bindKS {x : M α} {f : α → M β}
    (hx : KeepsSt x) (hf : ∀ a, KeepsSt (f a)) : KeepsSt (x >>= f) := by
  intro c
  simp only [bind_apply]
  cases hres : x c with
  | ok a c' =>
      have h1 := hx c
      rw [hres] at h1
      exact (hf a c').trans h1
  | err e c' =>
      have h1 := hx c
      rw [hres] at h1
      exact h1

theorem KeepsSt.tryMKS {x : M α} {h : String → M α}
    (hx : KeepsSt x) (hh : ∀ e, KeepsSt (h e)) : KeepsSt (tryM x h) := by
  intro c
  simp only [tryM_apply]
  cases hres : x c with
  | ok a c' =>
      have h1 := hx c
      rw [hres] at h1
      exact h1
  | err e c' =>
      have h1 := hx c
      rw [hres] at h1
      exact (hh e c').trans h1

theorem KeepsSt.pureKS (a : α) : KeepsSt (pure a : M α) := fun _ => rfl

theorem KeepsMPI.bindKM {x : M α} {f : α → M β}
    (hx : KeepsMPI x) (hf : ∀ a, KeepsMPI (f a)) : KeepsMPI (x >>= f) := by
  intro c
  simp only [bind_apply]
  cases hres : x c with
  | ok a c' =>
      have h1 := hx c
      rw [hres] at h1
      have h2 := hf a c'
      exact ⟨h2.1.trans h1.1, h2.2.1.trans h1.2.1, h2.2.2.trans h1.2.2⟩
  | err e c' =>
      have h1 := hx c
      rw [hres] at h1
      exact h1

/-! Leaf classifications. -/

theorem keeps_writeFileM (w : World) (p : String) (ct : Content) :
    KeepsStTrace (writeFileM w p ct) := by
  intro c
  unfold writeFileM
  split <;> exact ⟨rfl, rfl⟩

theorem keeps_copyPathM (p q : String) : KeepsStTrace (copyPathM p q) := by
  intro c
  unfold copyPathM
  split <;> exact ⟨rfl, rfl⟩

theorem keeps_statM (p : String) : KeepsStTrace (statM p) := by
  intro c
  unfold statM
  split <;> exact ⟨rfl, rfl⟩

theorem keeps_readFileM (p : String) : KeepsStTrace (readFileM p) := by
  intro c
  unfold readFileM
  split <;> exact ⟨rfl, rfl⟩

theorem keeps_accessM (p : String) : KeepsStTrace (accessM p) := by
  intro c
  unfold accessM
  split <;> exact ⟨rfl, rfl⟩

theorem keeps_mkdirM (p : String) : KeepsStTrace (mkdirM p) := by
  intro c
  unfold mkdirM modifyM
  simp only [Res.cfg]
  split <;> exact ⟨rfl, rfl⟩

theorem keeps_matBody (w : World) (rel : String) : KeepsStTrace (matBody w rel) := by
  have hfile : ∀ ct, KeepsStTrace (writeFileM w (resolveWorkingPath rel) ct >>= fun _ =>
      writeFileM w (resolveLocalPath rel) ct >>= fun _ =>
      writeFileM w (resolveGitPath rel) ct) := by
    intro ct
    apply KeepsStTrace.bindK (keeps_writeFileM _ _ _)
    intro a
    exact KeepsStTrace.bindK (keeps_writeFileM _ _ _) (fun _ => keeps_writeFileM _ _ _)
  have hfile2 : ∀ ct, KeepsStTrace (writeFileM w (resolveWorkingPath rel) ct >>= fun _ =>
      writeFileM w (resolveLocalPath rel) ct >>= fun _ => (pure () : M Unit)) := by
    intro ct
    apply KeepsStTrace.bindK (keeps_writeFileM _ _ _)
    intro a
    exact KeepsStTrace.bindK (keeps_writeFileM _ _ _) (fun _ => KeepsStTrace.pureK ())
  have hdir : ∀ src, KeepsStTrace (copyPathM src (resolveWorkingPath rel) >>= fun _ =>
      copyPathM src (resolveLocalPath rel) >>= fun _ =>
      copyPathM src (resolveGitPath rel)) := by
    intro src
    apply KeepsStTrace.bindK (keeps_copyPathM _ _)
    intro a
    exact KeepsStTrace.bindK (keeps_copyPathM _ _) (fun _ => keeps_copyPathM _ _)
  have hdir2 : ∀ src, KeepsStTrace (copyPathM src (resolveWorkingPath rel) >>= fun _ =>
      copyPathM src (resolveLocalPath rel) >>= fun _ => (pure () : M Unit)) := by
    intro src
    apply KeepsStTrace.bindK (keeps_copyPathM _ _)
    intro a
    exact KeepsStTrace.bindK (keeps_copyPathM _ _) (fun _ => KeepsStTrace.pureK ())
  intro c
  unfold matBody
  simp only [bind_apply, getM_apply]
  cases hpick : pickSource c rel with
  | none => exact ⟨rfl, rfl⟩
  | some src =>
      simp only [bind_apply]
      cases hst : statM src c with
      | err e c' =>
          have h1 := keeps_statM src c
          rw [hst] at h1
          exact h1
      | ok e c' =>
          have h1 := keeps_statM src c
          rw [hst] at h1
          simp only []
          cases e with
          | dir label =>
              simp only []
              by_cases hm : c.st.mode ≠ Mode.LOCAL
              · rw [if_pos hm]
                have h2 := hdir src c'
                exact ⟨h2.1.trans h1.1, h2.2.trans h1.2⟩
              · rw [if_neg hm]
                have h2 := hdir2 src c'
                exact ⟨h2.1.trans h1.1, h2.2.trans h1.2⟩
          | file ct =>
              simp only []
              by_cases hm : c.st.mode ≠ Mode.LOCAL
              · rw [if_pos hm]
                have h2 := hfile ct c'
                exact ⟨h2.1.trans h1.1, h2.2.trans h1.2⟩
              · rw [if_neg hm]
                have h2 := hfile2 ct c'
                exact ⟨h2.1.trans h1.1, h2.2.trans h1.2⟩

theorem keeps_matLoop (w : World) (fl : List String) : KeepsStTrace (matLoop w fl) := by
  induction fl with
  | nil => exact KeepsStTrace.pureK ()
  | cons rel rest ih =>
      exact KeepsStTrace.bindK (keeps_matBody w rel) (fun _ => ih)


theorem keeps_runGit (w : World) (cmd : GitCmd) : KeepsSt (runGit w cmd) := by
  intro c
  unfold runGit
  split <;> rfl

theorem keeps_sleepM (ms : Nat) : KeepsSt (sleepM ms) := fun _ => rfl

theorem keeps_stageFiles (w : World) (fl : List String) : KeepsSt (stageFiles w fl) := by
  apply KeepsSt.bindKS (keeps_runGit w GitCmd.add)
  intro a
  intro c
  rfl

theorem keeps_hasStagedChanges : KeepsSt hasStagedChanges := fun _ => rfl

theorem keeps_hasHead : KeepsSt hasHead := fun _ => rfl

theorem keeps_commitM (w : World) : KeepsSt (commitM w) := by
  apply KeepsSt.bindKS keeps_hasHead
  intro a
  cases a
  · simp only [Bool.false_eq_true, if_false]
    exact KeepsSt.bindKS (keeps_runGit w GitCmd.commitNew) (fun _ _ => rfl)
  · simp only [if_true]
    exact KeepsSt.bindKS (keeps_runGit w GitCmd.commitAmend) (fun _ _ => rfl)

theorem keeps_checkoutBranch (w : World) : KeepsSt (checkoutBranch w) :=
  KeepsSt.tryMKS (keeps_runGit w GitCmd.checkout) (fun _ => keeps_runGit w GitCmd.checkoutNew)

theorem keeps_pullLatest (w : World) : KeepsSt (pullLatest w) := keeps_runGit w GitCmd.pull

theorem keeps_prepareRepository (w : World) : KeepsSt (prepareRepository w) := by
  have hrest : KeepsSt (do
      tryM (runGit w GitCmd.fetch) fun _ => pure ()
      checkoutBranch w
      tryM (pullLatest w) fun _ => pure () : M Unit) := by
    apply KeepsSt.bindKS (KeepsSt.tryMKS (keeps_runGit w GitCmd.fetch) (fun _ => KeepsSt.pureKS ()))
    intro a
    apply KeepsSt.bindKS (keeps_checkoutBranch w)
    intro a2
    exact KeepsSt.tryMKS (keeps_pullLatest w) (fun _ => KeepsSt.pureKS ())
  apply KeepsSt.bindKS (show KeepsSt getM from fun _ => rfl)
  intro a
  by_cases hpres : a.repo.present = true
  · simp only [hpres, if_true]
    apply KeepsSt.bindKS (KeepsSt.pureKS ())
    intro y
    exact hrest
  · simp only [hpres, if_false]
    by_cases hemp : gitDirEntries a = []
    · simp only [hemp, if_true]
      apply KeepsSt.bindKS (keeps_runGit w GitCmd.clone)
      intro a2
      apply KeepsSt.bindKS (show KeepsSt (modifyM cloneEffect) from fun c => by
        unfold modifyM cloneEffect
        simp only [Res.cfg]
        split <;> rfl)
      intro y
      exact hrest
    · simp only [hemp, if_false]
      apply KeepsSt.bindKS (keeps_runGit w GitCmd.gitInit)
      intro a2
      apply KeepsSt.bindKS (show KeepsSt (modifyM initEffect) from fun _ => rfl)
      intro a3
      apply KeepsSt.bindKS (KeepsSt.tryMKS (keeps_runGit w GitCmd.remoteAdd) (fun _ => KeepsSt.pureKS ()))
      intro y
      exact hrest

theorem keeps_prepareGitEnv (w : World) : KeepsMPI (prepareGitEnv w) := by
  apply KeepsMPI.bindKM ((keeps_mkdirM askPassDir).keepsSt.mpi)
  intro a
  apply KeepsMPI.bindKM ((keeps_writeFileM w askPassFile (Content.text askPassScript)).keepsSt.mpi)
  intro a2
  intro c
  exact ⟨rfl, rfl, rfl⟩

theorem keeps_pushLoop (w : World) (k : Nat) : KeepsMPI (pushLoop w k) := by
  induction k with
  | zero => exact fun c => ⟨rfl, rfl, rfl⟩
  | succ k ih =>
      intro c
      by_cases hp : w.gitOk c.gitCount GitCmd.push
      · rw [pushLoop_succ_ok w c k hp]
        exact ⟨rfl, rfl, rfl⟩
      · rw [pushLoop_succ_fail w c k (Bool.of_not_eq_true hp)]
        have h1 := ih
          { c with
            st := { c.st with error := some (gitErrMsg GitCmd.push) }
          , trace := c.trace ++ [GEvent.git GitCmd.push, GEvent.sleep 3000]
          , gitCount := c.gitCount + 1 }
        exact ⟨h1.1, h1.2.1, h1.2.2⟩

theorem keeps_pushWithRetry (w : World) (sp : Bool) : KeepsMPI (pushWithRetry w sp) := by
  cases sp
  · exact fun c => ⟨rfl, rfl, rfl⟩
  · exact keeps_pushLoop w 3


theorem SInvI.toSInv {c : Config} (h : SInvI c) : SInv c :=
  ⟨h.1, fun _ => h.2⟩

theorem HoareC.weakenPost {P Q R : Config → Prop} {x : M α}
    (hx : HoareC P x Q) (h : ∀ c, Q c → R c) : HoareC P x R :=
  fun c hc => h _ (hx c hc)

theorem HoareC.weakenPre {P P' Q : Config → Prop} {x : M α}
    (hx : HoareC P x Q) (h : ∀ c, P' c → P c) : HoareC P' x Q :=
  fun c hc => hx c (h c hc)

theorem hoareSI_of_keepsMPI {x : M α} (h : KeepsMPI x) : HoareC SInvI x SInvI := by
  intro c hc
  obtain ⟨hm, hp, hi⟩ := h c
  refine ⟨fun hl => ?_, by rw [hi]; exact hc.2⟩
  rw [hp]
  exact hc.1 (by rw [← hm]; exact hl)

theorem hoareSI_of_keepsSt {x : M α} (h : KeepsSt x) : HoareC SInvI x SInvI :=
  hoareSI_of_keepsMPI h.mpi

theorem hoareSI_of_keepsStTrace {x : M α} (h : KeepsStTrace x) : HoareC SInvI x SInvI :=
  hoareSI_of_keepsMPI h.keepsSt.mpi

theorem hoarePF_of_keepsMPI {x : M α} (h : KeepsMPI x) : HoareC PendFalse x PendFalse := by
  intro c hc
  have := (h c).2.1
  unfold PendFalse
  rw [this]
  exact hc

theorem HoareC.bind_total {P Q R : Config → Prop} {x : M α} {f : α → M β}
    (hx : HoareC P x Q) (ht : ∀ c, ∃ a c', x c = Res.ok a c')
    (hf : ∀ a, HoareC Q (f a) R) : HoareC P (x >>= f) R := by
  intro c hc
  simp only [bind_apply]
  obtain ⟨a, c', heq⟩ := ht c
  rw [heq]
  have h2 := hx c hc
  rw [heq] at h2
  exact hf a c' h2

theorem tryM_total {x : M α} {h : String → M α}
    (hh : ∀ e c, ∃ a c', h e c = Res.ok a c') :
    ∀ c, ∃ a c', tryM x h c = Res.ok a c' := by
  intro c
  cases hres : x c with
  | ok a c' => exact ⟨a, c', by simp [tryM_apply, hres]⟩
  | err e c' =>
      obtain ⟨a2, c2, h2⟩ := hh e c'
      exact ⟨a2, c2, by simp [tryM_apply, hres, h2]⟩

/-- `ensureInitialized` establishes the strengthened invariant. -/
theorem init_hoare (w : World) (fl : List String) :
    HoareC SInv (ensureInitialized w fl) SInvI := by
  unfold ensureInitialized
  refine HoareC.bind_total (Q := SInv) ?_ ?_ ?_
  · split
    · exact fun c hc => hc
    · exact fun c hc => hc
  · split
    · exact fun c => ⟨(), _, rfl⟩
    · exact fun c => ⟨(), _, rfl⟩
  · intro a
    intro c hc
    simp only [bind_apply, getM_apply]
    by_cases hi : c.st.initializedF = true
    · rw [if_pos hi]
      exact ⟨hc.1, hi⟩
    · rw [if_neg hi]
      have hmode : c.st.mode = Mode.LOCAL := by
        by_contra hm
        exact hi (hc.2 hm)
      have hpend : PendFalse c := hc.1 hmode
      refine HoareC.bind_total (Q := PendFalse) (R := SInvI)
        (hoarePF_of_keepsMPI (keeps_mkdirM baseDir).keepsSt.mpi)
        (fun c2 => ⟨(), _, rfl⟩) ?_ c hpend
      · intro a2
        refine HoareC.bind_total (Q := PendFalse) (R := SInvI)
          (hoarePF_of_keepsMPI (keeps_mkdirM gitDir).keepsSt.mpi)
          (fun c2 => ⟨(), _, rfl⟩) ?_
        · intro a3
          split
          · refine HoareC.bindH (Q := SInvI) ?_ (fun _ => HoareC.getSnapM) (fun _ h => h)
            exact HoareC.modifyM (fun c2 hc2 => ⟨fun _ => hc2, rfl⟩)
          · refine HoareC.bind_total (Q := PendFalse) (R := SInvI) ?_ ?_ ?_
            · refine HoareC.tryMH ?_ ?_
              · refine HoareC.bindH (Q := PendFalse) (R := PendFalse)
                  (hoarePF_of_keepsMPI (keeps_prepareGitEnv w)) ?_ (fun _ h => h)
                intro a4
                refine HoareC.bindH (Q := PendFalse) (R := PendFalse)
                  (hoarePF_of_keepsMPI (keeps_prepareRepository w).mpi) ?_ (fun _ h => h)
                intro a5
                exact HoareC.modifyM (fun c2 _ => rfl)
              · intro e
                exact HoareC.modifyM (fun c2 h => h)
            · exact tryM_total (fun e c2 => ⟨(), _, rfl⟩)
            · intro a4
              refine HoareC.bindH (Q := SInvI) ?_ (fun _ => HoareC.getSnapM) (fun _ h => h)
              exact HoareC.modifyM (fun c2 hc2 => ⟨fun _ => hc2, rfl⟩)

/-- `ensureWorkingCopies` establishes the strengthened invariant. -/
theorem ewc_hoare (w : World) (files : Option (List String)) :
    HoareC SInv (ensureWorkingCopies w files) SInvI := by
  unfold ensureWorkingCopies
  refine HoareC.bind_getM ?_
  intro c0 _
  refine HoareC.bindH (Q := SInvI) (init_hoare w _) ?_ (fun _ h => h)
  intro a
  refine HoareC.bind_getM ?_
  intro c hcI
  refine HoareC.bindH (Q := SInvI) ?_ ?_ (fun _ h => h)
  · split
    · refine HoareC.tryMH (hoareSI_of_keepsSt (keeps_pullLatest w)) ?_
      intro e
      refine HoareC.modifyM ?_
      intro c2 hc2
      exact ⟨fun hl => (nomatch hl), hc2.2⟩
    · exact HoareC.pureH ()
  · intro a2
    exact HoareC.bindH (hoareSI_of_keepsStTrace (keeps_matLoop w _))
      (fun _ => HoareC.getSnapM) (fun _ h => h)

/-- `readJson` preserves the strengthened invariant from any `SInv` state. -/
theorem readJson_hoare (w : World) (rel : String) :
    HoareC SInv (readJson w rel) SInvI := by
  unfold readJson
  refine HoareC.bindH (Q := SInvI) (ewc_hoare w _) ?_ (fun _ h => h)
  intro a
  refine HoareC.bindH (Q := SInvI) (hoareSI_of_keepsStTrace (keeps_readFileM _)) ?_
    (fun _ h => h)
  intro ct
  split
  · exact HoareC.pureH _
  · exact HoareC.throwM _

/-- `writeJson` preserves the strengthened invariant from any `SInv` state. -/
theorem writeJson_hoare (w : World) (rel : String) (data : JSData) :
    HoareC SInv (writeJson w rel data) SInvI := by
  unfold writeJson
  refine HoareC.bindH (Q := SInvI) (init_hoare w _) ?_ (fun _ h => h)
  intro a
  refine HoareC.bindH (Q := SInvI) (hoareSI_of_keepsStTrace (keeps_writeFileM w _ _)) ?_
    (fun _ h => h)
  intro a2
  refine HoareC.bindH (Q := SInvI) (hoareSI_of_keepsStTrace (keeps_writeFileM w _ _)) ?_
    (fun _ h => h)
  intro a3
  refine HoareC.bind_getM ?_
  intro c hcI
  split
  · refine HoareC.bindH (Q := SInvI) ?_ (fun _ => HoareC.getSnapM) (fun _ h => h)
    exact HoareC.modifyM (fun c2 hc2 => ⟨fun _ => rfl, hc2.2⟩)
  · refine HoareC.bindH (Q := SInvI) (hoareSI_of_keepsStTrace (keeps_writeFileM w _ _)) ?_
      (fun _ h => h)
    intro a4
    refine HoareC.bindH (Q := SInvI) (hoareSI_of_keepsSt (keeps_stageFiles w _)) ?_
      (fun _ h => h)
    intro a5
    refine HoareC.bindH (Q := SInvI) (hoareSI_of_keepsSt keeps_hasStagedChanges) ?_
      (fun _ h => h)
    intro hasChanges
    refine HoareC.bindH (Q := SInvI) ?_ ?_ (fun _ h => h)
    · split
      · exact hoareSI_of_keepsSt (keeps_commitM w)
      · exact HoareC.pureH ()
    · intro a6
      refine HoareC.bind_getM ?_
      intro c2 hc2
      refine HoareC.bindH (Q := SInvI) (hoareSI_of_keepsMPI (keeps_pushWithRetry w _)) ?_
        (fun _ h => h)
      intro pushed
      refine HoareC.bindH (Q := SInvI) ?_ (fun _ => HoareC.getSnapM) (fun _ h => h)
      split
      · exact HoareC.modifyM (fun c3 hc3 => ⟨fun hl => (nomatch hl), hc3.2⟩)
      · exact HoareC.modifyM (fun c3 hc3 => ⟨fun hl => (nomatch hl), hc3.2⟩)

/-- `syncDirectory` preserves the strengthened invariant from any `SInv` state. -/
theorem syncDirectory_hoare (w : World) (rel : String) :
    HoareC SInv (syncDirectory w rel) SInvI := by
  unfold syncDirectory
  refine HoareC.bindH (Q := SInvI) (init_hoare w _) ?_ (fun _ h => h)
  intro a
  refine HoareC.bindH (Q := SInvI)
    (HoareC.weakenPre (ewc_hoare w _) (fun _ h => h.toSInv)) ?_ (fun _ h => h)
  intro a2
  refine HoareC.bind_getM ?_
  intro c hcI
  split
  · exact HoareC.getSnapM
  · refine HoareC.bindH (Q := SInvI) (hoareSI_of_keepsStTrace (keeps_copyPathM _ _)) ?_
      (fun _ h => h)
    intro a3
    split
    · refine HoareC.bindH (Q := SInvI) ?_ (fun _ => HoareC.getSnapM) (fun _ h => h)
      exact HoareC.modifyM (fun c2 hc2 => ⟨fun _ => rfl, hc2.2⟩)
    · refine HoareC.bindH (Q := SInvI) (hoareSI_of_keepsStTrace (keeps_copyPathM _ _)) ?_
        (fun _ h => h)
      intro a4
      refine HoareC.bindH (Q := SInvI) (hoareSI_of_keepsSt (keeps_stageFiles w _)) ?_
        (fun _ h => h)
      intro a5
      refine HoareC.bindH (Q := SInvI) (hoareSI_of_keepsSt keeps_hasStagedChanges) ?_
        (fun _ h => h)
      intro hasChanges
      refine HoareC.bindH (Q := SInvI) ?_ ?_ (fun _ h => h)
      · split
        · exact hoareSI_of_keepsSt (keeps_commitM w)
        · exact HoareC.pureH ()
      · intro a6
        refine HoareC.bind_getM ?_
        intro c2 hc2
        refine HoareC.bindH (Q := SInvI)
          (hoareSI_of_keepsMPI (keeps_pushWithRetry w _)) ?_ (fun _ h => h)
        intro pushed
        refine HoareC.bindH (Q := SInvI) ?_ (fun _ => HoareC.getSnapM) (fun _ h => h)
        split
        · exact HoareC.modifyM (fun c3 hc3 => ⟨fun hl => (nomatch hl), hc3.2⟩)
        · exact HoareC.modifyM (fun c3 hc3 => ⟨fun hl => (nomatch hl), hc3.2⟩)

/-- `syncAllInStore` preserves the strengthened invariant from any `SInv` state. -/
theorem syncAll_hoare (w : World) (a : SyncAllArgs) :
    HoareC SInv (syncAllInStore w a) SInvI := by
  unfold syncAllInStore
  refine HoareC.bindH (Q := SInvI) (init_hoare w _) ?_ (fun _ h => h)
  intro x
  refine HoareC.bindH (Q := SInvI)
    (HoareC.weakenPre (ewc_hoare w _) (fun _ h => h.toSInv)) ?_ (fun _ h => h)
  intro x2
  refine HoareC.bindH (Q := SInvI) ?_ (fun _ => HoareC.getSnapM) (fun _ h => h)
  refine HoareC.tryMH ?_ ?_
  · refine HoareC.bindH (Q := SInvI)
      (HoareC.weakenPre (writeJson_hoare w _ _) (fun _ h => h.toSInv)) ?_ (fun _ h => h)
    intro y1
    refine HoareC.bindH (Q := SInvI)
      (HoareC.weakenPre (writeJson_hoare w _ _) (fun _ h => h.toSInv)) ?_ (fun _ h => h)
    intro y2
    refine HoareC.bindH (Q := SInvI) ?_ ?_ (fun _ h => h)
    · split
      · refine HoareC.tryMH ?_ (fun _ => HoareC.pureH ())
        refine HoareC.bindH (Q := SInvI) (hoareSI_of_keepsStTrace (keeps_accessM _)) ?_
          (fun _ h => h)
        intro y3
        refine HoareC.bindH (Q := SInvI)
          (HoareC.weakenPre (syncDirectory_hoare w _) (fun _ h => h.toSInv)) ?_
          (fun _ h => h)
        intro y4
        exact HoareC.pureH ()
      · exact HoareC.pureH ()
    · intro y5
      split
      · refine HoareC.bind_getM ?_
        intro c hcI
        split
        · refine HoareC.bindH (Q := SInvI)
            (hoareSI_of_keepsStTrace (keeps_readFileM _)) ?_ (fun _ h => h)
          intro pc
          refine HoareC.bindH (Q := SInvI)
            (HoareC.weakenPre (writeJson_hoare w _ _) (fun _ h => h.toSInv)) ?_
            (fun _ h => h)
          intro y6
          exact HoareC.pureH ()
        · exact HoareC.pureH ()
      · exact HoareC.pureH ()
  · intro e
    refine HoareC.modifyM ?_
    intro c2 hc2
    constructor
    · intro hl
      have hl2 : (if c2.st.mode = Mode.ACTIVE then Mode.DEGRADED else c2.st.mode) =
          Mode.LOCAL := hl
      by_cases hA : c2.st.mode = Mode.ACTIVE
      · rw [if_pos hA] at hl2
        exact absurd hl2 (by simp)
      · rw [if_neg hA] at hl2
        exact hc2.1 hl2
    · exact hc2.2

/-- Every public operation preserves the inductive invariant. -/
theorem runOp_sinv (w : World) (op : Op) : HoareC SInv (runOp w op) SInv := by
  cases op with
  | opInit fl =>
      exact HoareC.bindH (init_hoare w fl)
        (fun _ => HoareC.weakenPost (HoareC.pureH _) (fun _ h => h.toSInv))
        (fun _ h => h.toSInv)
  | opMaterialize fl =>
      exact HoareC.bindH (ewc_hoare w fl)
        (fun _ => HoareC.weakenPost (HoareC.pureH _) (fun _ h => h.toSInv))
        (fun _ h => h.toSInv)
  | opRead k =>
      exact HoareC.bindH (readJson_hoare w k)
        (fun _ => HoareC.weakenPost (HoareC.pureH _) (fun _ h => h.toSInv))
        (fun _ h => h.toSInv)
  | opWrite k d =>
      exact HoareC.bindH (writeJson_hoare w k d)
        (fun _ => HoareC.weakenPost (HoareC.pureH _) (fun _ h => h.toSInv))
        (fun _ h => h.toSInv)
  | opSyncDir d =>
      exact HoareC.bindH (syncDirectory_hoare w d)
        (fun _ => HoareC.weakenPost (HoareC.pureH _) (fun _ h => h.toSInv))
        (fun _ h => h.toSInv)
  | opSyncAll a =>
      exact HoareC.bindH (syncAll_hoare w a)
        (fun _ => HoareC.weakenPost (HoareC.pureH _) (fun _ h => h.toSInv))
        (fun _ h => h.toSInv)

/-- The invariant survives any sequence of public operations. -/
theorem sinv_runOps (w : World) (ops : List Op) (c : Config) (h : SInv c) :
    SInv (runOps w ops c) := by
  induction ops generalizing c with
  | nil => exact h
  | cons op rest ih => exact ih _ (runOp_sinv w op c h)

/-- A fresh configuration satisfies the inductive invariant. -/
theorem sinv_initialConfig (w : World) (t : Tree) (r : Repo) (rm : Option Tree) :
    SInv (initialConfig w t r rm) :=
  ⟨fun _ => rfl, fun h => absurd rfl h⟩

/-- C7: the invariant "pending implies mode is not LOCAL" holds in a fresh
configuration, the inductive invariant `SInv` that carries it is preserved
by every public operation, and hence every configuration reachable by a
sequence of public operations has `pending = false` whenever its mode is
LOCAL. -/
theorem claim_C7 (w : World) (t : Tree) (r : Repo) (rm : Option Tree) (ops : List Op) :
    ((initialConfig w t r rm).st.pending = true →
      (initialConfig w t r rm).st.mode ≠ Mode.LOCAL) ∧
    (∀ c op, SInv c → SInv (step w c op)) ∧
    ((runOps w ops (initialConfig w t r rm)).st.pending = true →
      (runOps w ops (initialConfig w t r rm)).st.mode ≠ Mode.LOCAL) := by
  refine ⟨fun hp => (nomatch hp), fun c op h => runOp_sinv w op c h, fun hp hl => ?_⟩
  have h2 := (sinv_runOps w ops _ (sinv_initialConfig w t r rm)).1 hl
  rw [h2] at hp
  exact Bool.false_ne_true hp

/-- C7 instantiated: one write against a healthy world from a fresh store. -/
theorem claim_C7_witness :
    ((initialConfig wOk [] repoEmpty none).st.pending = true →
      (initialConfig wOk [] repoEmpty none).st.mode ≠ Mode.LOCAL) ∧
    (∀ c op, SInv c → SInv (step wOk c op)) ∧
    ((runOps wOk [Op.opWrite "config.json" (JSData.val vA)]
        (initialConfig wOk [] repoEmpty none)).st.pending = true →
      (runOps wOk [Op.opWrite "config.json" (JSData.val vA)]
        (initialConfig wOk [] repoEmpty none)).st.mode ≠ Mode.LOCAL) :=
  claim_C7 wOk [] repoEmpty none [Op.opWrite "config.json" (JSData.val vA)]

theorem KeepsStTrace.mt {x : M α} (h : KeepsStTrace x) : KeepsMT x := by
  intro c
  obtain ⟨h1, h2⟩ := h c
  rw [h1, h2]
  exact ⟨rfl, rfl⟩

theorem hoareL_of_keepsMT {x : M α} (h : KeepsMT x) : HoareC LInv x LInv := by
  intro c hc
  obtain ⟨h1, h2⟩ := h c
  exact ⟨h1.trans hc.1, h2.trans hc.2⟩

/-- With a required credential missing, `ensureInitialized` keeps the store
LOCAL and spawns no process. -/
theorem initL_hoare (w : World) (hm : missingEnv w ≠ []) (fl : List String) :
    HoareC LInv (ensureInitialized w fl) LInv := by
  unfold ensureInitialized
  refine HoareC.bindH (Q := LInv) ?_ ?_ (fun _ h => h)
  · split
    · exact HoareC.modifyM (fun c hc => ⟨hc.1, hc.2⟩)
    · exact HoareC.pureH ()
  · intro a
    refine HoareC.bind_getM ?_
    intro c hc
    split
    · exact HoareC.getSnapM
    · refine HoareC.bindH (Q := LInv) (hoareL_of_keepsMT (keeps_mkdirM baseDir).mt) ?_
        (fun _ h => h)
      intro a2
      refine HoareC.bindH (Q := LInv) (hoareL_of_keepsMT (keeps_mkdirM gitDir).mt) ?_
        (fun _ h => h)
      intro a3
      refine HoareC.bindH (Q := LInv) ?_ (fun _ => HoareC.getSnapM) (fun _ h => h)
      exact HoareC.modifyM (fun c2 hc2 => ⟨rfl, hc2.2⟩)

/-- With a required credential missing, materialization stays LOCAL and runs
no process. -/
theorem ewcL_hoare (w : World) (hm : missingEnv w ≠ []) (files : Option (List String)) :
    HoareC LInv (ensureWorkingCopies w files) LInv := by
  unfold ensureWorkingCopies
  refine HoareC.bind_getM ?_
  intro c0 _
  refine HoareC.bindH (Q := LInv) (initL_hoare w hm _) ?_ (fun _ h => h)
  intro a
  refine HoareC.bind_getM ?_
  intro c hc
  refine HoareC.bindH (Q := LInv) ?_ ?_ (fun _ h => h)
  · rw [if_neg (not_not_intro hc.1)]
    exact HoareC.pureH ()
  · intro a2
    exact HoareC.bindH (hoareL_of_keepsMT (keeps_matLoop w _).mt)
      (fun _ => HoareC.getSnapM) (fun _ h => h)

theorem readL_hoare (w : World) (hm : missingEnv w ≠ []) (rel : String) :
    HoareC LInv (readJson w rel) LInv := by
  unfold readJson
  refine HoareC.bindH (Q := LInv) (ewcL_hoare w hm _) ?_ (fun _ h => h)
  intro a
  refine HoareC.bindH (Q := LInv) (hoareL_of_keepsMT (keeps_readFileM _).mt) ?_
    (fun _ h => h)
  intro ct
  split
  · exact HoareC.pureH _
  · exact HoareC.throwM _

theorem writeL_hoare (w : World) (hm : missingEnv w ≠ []) (rel : String) (data : JSData) :
    HoareC LInv (writeJson w rel data) LInv := by
  unfold writeJson
  refine HoareC.bindH (Q := LInv) (initL_hoare w hm _) ?_ (fun _ h => h)
  intro a
  refine HoareC.bindH (Q := LInv) (hoareL_of_keepsMT (keeps_writeFileM w _ _).mt) ?_
    (fun _ h => h)
  intro a2
  refine HoareC.bindH (Q := LInv) (hoareL_of_keepsMT (keeps_writeFileM w _ _).mt) ?_
    (fun _ h => h)
  intro a3
  refine HoareC.bind_getM ?_
  intro c hc
  rw [if_pos hc.1]
  refine HoareC.bindH (Q := LInv) ?_ (fun _ => HoareC.getSnapM) (fun _ h => h)
  exact HoareC.modifyM (fun c2 hc2 => ⟨hc2.1, hc2.2⟩)

theorem syncDirL_hoare (w : World) (hm : missingEnv w ≠ []) (rel : String) :
    HoareC LInv (syncDirectory w rel) LInv := by
  unfold syncDirectory
  refine HoareC.bindH (Q := LInv) (initL_hoare w hm _) ?_ (fun _ h => h)
  intro a
  refine HoareC.bindH (Q := LInv) (ewcL_hoare w hm _) ?_ (fun _ h => h)
  intro a2
  refine HoareC.bind_getM ?_
  intro c hc
  split
  · exact HoareC.getSnapM
  · refine HoareC.bindH (Q := LInv) (hoareL_of_keepsMT (keeps_copyPathM _ _).mt) ?_
      (fun _ h => h)
    intro a3
    rw [if_pos hc.1]
    refine HoareC.bindH (Q := LInv) ?_ (fun _ => HoareC.getSnapM) (fun _ h => h)
    exact HoareC.modifyM (fun c2 hc2 => ⟨hc2.1, hc2.2⟩)

theorem syncAllL_hoare (w : World) (hm : missingEnv w ≠ []) (a : SyncAllArgs) :
    HoareC LInv (syncAllInStore w a) LInv := by
  unfold syncAllInStore
  refine HoareC.bindH (Q := LInv) (initL_hoare w hm _) ?_ (fun _ h => h)
  intro x
  refine HoareC.bindH (Q := LInv) (ewcL_hoare w hm _) ?_ (fun _ h => h)
  intro x2
  refine HoareC.bindH (Q := LInv) ?_ (fun _ => HoareC.getSnapM) (fun _ h => h)
  refine HoareC.tryMH ?_ ?_
  · refine HoareC.bindH (Q := LInv) (writeL_hoare w hm _ _) ?_ (fun _ h => h)
    intro y1
    refine HoareC.bindH (Q := LInv) (writeL_hoare w hm _ _) ?_ (fun _ h => h)
    intro y2
    refine HoareC.bindH (Q := LInv) ?_ ?_ (fun _ h => h)
    · split
      · refine HoareC.tryMH ?_ (fun _ => HoareC.pureH ())
        refine HoareC.bindH (Q := LInv) (hoareL_of_keepsMT (keeps_accessM _).mt) ?_
          (fun _ h => h)
        intro y3
        refine HoareC.bindH (Q := LInv) (syncDirL_hoare w hm _) ?_ (fun _ h => h)
        intro y4
        exact HoareC.pureH ()
      · exact HoareC.pureH ()
    · intro y5
      split
      · refine HoareC.bind_getM ?_
        intro c hc
        split
        · refine HoareC.bindH (Q := LInv) (hoareL_of_keepsMT (keeps_readFileM _).mt) ?_
            (fun _ h => h)
          intro pc
          refine HoareC.bindH (Q := LInv) (writeL_hoare w hm _ _) ?_ (fun _ h => h)
          intro y6
          exact HoareC.pureH ()
        · exact HoareC.pureH ()
      · exact HoareC.pureH ()
  · intro e
    refine HoareC.modifyM ?_
    intro c2 hc2
    constructor
    · show (if c2.st.mode = Mode.ACTIVE then Mode.DEGRADED else c2.st.mode) = Mode.LOCAL
      rw [hc2.1]
      rfl
    · exact hc2.2

/-- With a required credential missing, every public operation keeps the mode
LOCAL and the trace empty. -/
theorem runOp_linv (w : World) (hm : missingEnv w ≠ []) (op : Op) :
    HoareC LInv (runOp w op) LInv := by
  cases op with
  | opInit fl =>
      exact HoareC.bindH (initL_hoare w hm fl) (fun _ => HoareC.pureH _) (fun _ h => h)
  | opMaterialize fl =>
      exact HoareC.bindH (ewcL_hoare w hm fl) (fun _ => HoareC.pureH _) (fun _ h => h)
  | opRead k =>
      exact HoareC.bindH (readL_hoare w hm k) (fun _ => HoareC.pureH _) (fun _ h => h)
  | opWrite k d =>
      exact HoareC.bindH (writeL_hoare w hm k d) (fun _ => HoareC.pureH _) (fun _ h => h)
  | opSyncDir d =>
      exact HoareC.bindH (syncDirL_hoare w hm d) (fun _ => HoareC.pureH _) (fun _ h => h)
  | opSyncAll a =>
      exact HoareC.bindH (syncAllL_hoare w hm a) (fun _ => HoareC.pureH _) (fun _ h => h)

theorem linv_runOps (w : World) (hm : missingEnv w ≠ []) (ops : List Op) (c : Config)
    (h : LInv c) : LInv (runOps w ops c) := by
  induction ops generalizing c with
  | nil => exact h
  | cons op rest ih => exact ih _ (runOp_linv w hm op c h)

/-- C1: if a required credential is missing, then after any sequence of
public operations from a fresh configuration the mode is still LOCAL and the
trace is empty — no git process was ever invoked. -/
theorem claim_C1 (w : World) (hm : missingEnv w ≠ []) (t : Tree) (r : Repo)
    (rm : Option Tree) (ops : List Op) :
    (runOps w ops (initialConfig w t r rm)).st.mode = Mode.LOCAL ∧
    (runOps w ops (initialConfig w t r rm)).trace = [] :=
  linv_runOps w hm ops _ ⟨rfl, rfl⟩

/-- C1 instantiated: a credential-free world, one full workload. -/
theorem claim_C1_witness :
    missingEnv wNoEnv ≠ [] ∧
    ((runOps wNoEnv
        [Op.opInit ["config.json"], Op.opWrite "config.json" (JSData.val vA),
         Op.opRead "config.json", Op.opSyncAll {}]
        (initialConfig wNoEnv [] repoEmpty none)).st.mode = Mode.LOCAL ∧
     (runOps wNoEnv
        [Op.opInit ["config.json"], Op.opWrite "config.json" (JSData.val vA),
         Op.opRead "config.json", Op.opSyncAll {}]
        (initialConfig wNoEnv [] repoEmpty none)).trace = []) :=
  ⟨by decide, claim_C1 wNoEnv (by decide) [] repoEmpty none
    [Op.opInit ["config.json"], Op.opWrite "config.json" (JSData.val vA),
     Op.opRead "config.json", Op.opSyncAll {}]⟩

end Gitstore
